import Mathlib

/-!
Shallow embedding of the text-to-parameter extraction pipeline of the
Health-Lab-Report-Analyzer repository:
  * `app/services/extraction_service.py` (pattern-based parameter
    extraction, unit normalization, status classification, deduplication),
  * `app/services/ocr_service.py` (tiered text acquisition).

Modelling conventions:
  * Python strings are modelled as `List Char` internally, with `String`
    wrappers at the interface; `len`, `split('\n')`, `strip()`, `lower()`
    are re-implemented faithfully (ASCII case folding).
  * Python floats are modelled as exact rationals `ℚ`: every numeric
    literal in the relevant tables and every value string captured by the
    extraction regexes is a short decimal, and the comparisons performed
    by the code (`<`, `>` against table constants and their exact halves
    and doubles) agree between binary64 and exact rational semantics for
    such inputs.
  * Python exceptions are modelled with `Option`/`Except`; library calls
    (pdfplumber, PyPDF2, pdf2image+pytesseract) are modelled by explicit
    environment records describing their outcome.
  * `uuid.uuid4()` is modelled by an explicit generator `Nat → String`
    consumed left to right.
  * `re.search(pattern, line, re.IGNORECASE)` is modelled by a small
    backtracking engine over an abstract syntax `Reg` covering exactly the
    regex fragment `_load_parameter_patterns` uses; `IGNORECASE` is
    modelled by matching the lowercased line against the (all-lowercase)
    patterns.
-/

namespace HLRA

/-- Python `str.lower` on one character, for the characters this pipeline
meets: ASCII letters map to lower case, everything else is unchanged. -/
def pyLowerChar (c : Char) : Char :=
  if 'A' ≤ c ∧ c ≤ 'Z' then Char.ofNat (c.toNat + 32) else c

/-- The ASCII whitespace characters Python's `str.strip` removes and the
regex class `\s` accepts. -/
def isPyWs (c : Char) : Bool :=
  c = ' ' ∨ c = '\t' ∨ c = '\n' ∨ c = '\r' ∨ c = '\x0b' ∨ c = '\x0c'

/-- ASCII digit: the model of the regex class `\d`. -/
def isDigitChar (c : Char) : Bool := '0' ≤ c ∧ c ≤ '9'

/-- The regex metacharacter `.`: any character except a newline. -/
def isDotChar (c : Char) : Bool := c ≠ '\n'

/-- Python `str.strip()` on a character list. -/
def stripChars (cs : List Char) : List Char :=
  ((cs.dropWhile isPyWs).reverse.dropWhile isPyWs).reverse

/-- Python `str.strip()`. -/
def pyStrip (s : String) : String := String.mk (stripChars s.data)

/-- Python `str.lower()` (ASCII). -/
def pyLower (s : String) : String := String.mk (s.data.map pyLowerChar)

/-- Python `str.split('\n')`. -/
def splitOnNl : List Char → List (List Char)
  | [] => [[]]
  | c :: rest =>
    let r := splitOnNl rest
    if c = '\n' then [] :: r
    else
      match r with
      | [] => [[c]]
      | h :: t => (c :: h) :: t

/-- The two capture slots of the extraction regexes: group 1 (the value)
and group 2 (the unit); `none` means the group did not participate. -/
structure Caps where
  g1 : Option (List Char)
  g2 : Option (List Char)
deriving DecidableEq, Repr

/-- No group has participated yet. -/
def Caps.empty : Caps := ⟨none, none⟩

/-- Record the text consumed by capture group 1 (`i = false`) or
group 2 (`i = true`). -/
def Caps.set (i : Bool) (v : List Char) (caps : Caps) : Caps :=
  if i then { caps with g2 := some v } else { caps with g1 := some v }

/-- Abstract syntax of the regex fragment `_load_parameter_patterns` uses:
literals, one-character classes, concatenation, alternation (first
alternative preferred), greedy `(...)?`, the lazy star `.*?`, greedy stars
over a class (`\s*`, `\d*`), and the two capture groups. -/
inductive Reg where
  | eps : Reg
  | lit : Char → Reg
  | cls : (Char → Bool) → Reg
  | seq : Reg → Reg → Reg
  | alt : Reg → Reg → Reg
  | opt : Reg → Reg
  | starL : (Char → Bool) → Reg
  | starG : (Char → Bool) → Reg
  | group : Bool → Reg → Reg

/-- All ways the lazy star of class `p` can match a prefix of `s`,
shortest first (Python `.*?`): each element is the remaining suffix. -/
def starLAux (p : Char → Bool) : List Char → List (List Char)
  | [] => [[]]
  | c :: rest => (c :: rest) :: (if p c then starLAux p rest else [])

/-- All ways the greedy star of class `p` can match a prefix of `s`,
longest first (Python `\s*`, `\d*`): each element is the remaining
suffix. -/
def starGAux (p : Char → Bool) : List Char → List (List Char)
  | [] => [[]]
  | c :: rest =>
    if p c then starGAux p rest ++ [c :: rest] else [c :: rest]

/-- All matches of `r` against a prefix of `s`, in Python's backtracking
preference order (first element = the match Python's engine commits to).
Each element is the remaining suffix paired with the capture state. -/
def matchList : Reg → Caps → List Char → List (List Char × Caps)
  | .eps, caps, s => [(s, caps)]
  | .lit c, caps, s =>
    match s with
    | [] => []
    | a :: rest => if a = c then [(rest, caps)] else []
  | .cls p, caps, s =>
    match s with
    | [] => []
    | a :: rest => if p a then [(rest, caps)] else []
  | .seq r₁ r₂, caps, s =>
    (matchList r₁ caps s).flatMap fun pr => matchList r₂ pr.2 pr.1
  | .alt r₁ r₂, caps, s => matchList r₁ caps s ++ matchList r₂ caps s
  | .opt r, caps, s => matchList r caps s ++ [(s, caps)]
  | .starL p, caps, s => (starLAux p s).map fun suf => (suf, caps)
  | .starG p, caps, s => (starGAux p s).map fun suf => (suf, caps)
  | .group i r, caps, s =>
    (matchList r caps s).map fun pr =>
      (pr.1, Caps.set i (s.take (s.length - pr.1.length)) pr.2)

/-- Python `re.search`: try each start position left to right and commit
to the first position where the pattern matches, with the engine's
preferred match there; returns the capture state. -/
def reSearch (r : Reg) : List Char → Option Caps
  | [] =>
    match matchList r Caps.empty [] with
    | pr :: _ => some pr.2
    | [] => none
  | c :: rest =>
    match matchList r Caps.empty (c :: rest) with
    | pr :: _ => some pr.2
    | [] => reSearch r rest

/-- A literal string, concatenated character by character. -/
def lits : List Char → Reg
  | [] => .eps
  | c :: cs => .seq (.lit c) (lits cs)

/-- A literal string regex from a `String`. -/
def litS (s : String) : Reg := lits s.data

/-- Right-nested concatenation of a list of regexes. -/
def cat : List Reg → Reg
  | [] => .eps
  | r :: rs => .seq r (cat rs)

/-- Alternation of a list, first alternative preferred. -/
def altList : List Reg → Reg
  | [] => .eps
  | [r] => r
  | r :: rs => .alt r (altList rs)

/-- `\d+\.?\d*` : the value shape captured by group 1 of most patterns. -/
def numR : Reg :=
  cat [.cls isDigitChar, .starG isDigitChar, .opt (.lit '.'), .starG isDigitChar]

/-- `\d+`. -/
def intR : Reg := .seq (.cls isDigitChar) (.starG isDigitChar)

/-- `\s*`. -/
def wsStarR : Reg := .starG isPyWs

/-- `\s+`. -/
def wsPlusR : Reg := .seq (.cls isPyWs) wsStarR

/-- `.*?`. -/
def lazyAnyR : Reg := .starL isDotChar

/-- A unit alternation of plain literals, e.g. `(mg/dl|mmol/l)`. -/
def unitsR (us : List String) : Reg := altList (us.map litS)

/-- `(\d+\.?\d*)\s*(u)?` : the common value/unit tail of the patterns
(`u` is the unit alternation inside the optional capture group 2). -/
def valTail (u : Reg) : Reg :=
  cat [.group false numR, wsStarR, .opt (.group true u)]

/-- `head.*?(\d+\.?\d*)\s*(u)?` : the shape shared by most patterns. -/
def stdPat (head : Reg) (u : Reg) : Reg := .seq head (.seq lazyAnyR (valTail u))

/-- `cholesterol.*?(\d+\.?\d*)\s*(mg/dl|mmol/l)?` : the part shared by the
three cholesterol patterns. -/
def cholCore : Reg := stdPat (litS "cholesterol") (unitsR ["mg/dl", "mmol/l"])

/-- `(?:total\s+)?cholesterol.*?(\d+\.?\d*)\s*(mg/dl|mmol/l)?`. -/
def cholTotalR : Reg := .seq (.opt (.seq (litS "total") wsPlusR)) cholCore

/-- `ldl.*?cholesterol.*?(\d+\.?\d*)\s*(mg/dl|mmol/l)?`. -/
def cholLdlR : Reg := .seq (litS "ldl") (.seq lazyAnyR cholCore)

/-- `hdl.*?cholesterol.*?(\d+\.?\d*)\s*(mg/dl|mmol/l)?`. -/
def cholHdlR : Reg := .seq (litS "hdl") (.seq lazyAnyR cholCore)

/-- `(?:blood pressure|bp)`. -/
def bpHead : Reg := .alt (litS "blood pressure") (litS "bp")

/-- `(?:blood pressure|bp).*?(\d+)/\d+\s*(mmhg)?`. -/
def bpSystolicR : Reg :=
  .seq bpHead (.seq lazyAnyR
    (cat [.group false intR, .lit '/', intR, wsStarR, .opt (.group true (litS "mmhg"))]))

/-- `(?:blood pressure|bp).*?\d+/(\d+)\s*(mmhg)?`. -/
def bpDiastolicR : Reg :=
  .seq bpHead (.seq lazyAnyR
    (cat [intR, .lit '/', .group false intR, wsStarR, .opt (.group true (litS "mmhg"))]))

/-- The output record of the extraction component
(`app/models/health_data.py`, class `HealthParameter`).  `reference_range`
is always supplied by `_get_reference_range_string` (a plain string). -/
inductive ParameterStatus where
  | normal
  | high
  | low
  | critical
deriving DecidableEq, Repr

/-- `ParameterCategory` of `app/models/health_data.py`. -/
inductive ParameterCategory where
  | blood
  | urine
  | lipid
  | liver
  | kidney
  | hormone
  | vitamin
deriving DecidableEq, Repr

/-- A Python number literal of the reference-range table: an `int` such as
`70` or a `float` such as `12.0` (kept apart because `str()` renders them
differently in `_get_reference_range_string`). -/
inductive PyNum where
  | int : ℤ → PyNum
  | float : ℚ → PyNum
deriving DecidableEq, Repr

/-- The numeric value of a table entry, as compared by `_determine_status`. -/
def PyNum.toRat : PyNum → ℚ
  | .int n => mkRat n 1
  | .float q => q

/-- Exact halving of a rational: the value of `x * 0.5` (multiplication of
a binary64 float by 0.5 is exact). -/
def ratHalf (q : ℚ) : ℚ := mkRat q.num (q.den * 2)

/-- Exact doubling of a rational: the value of `x * 2`. -/
def ratDouble (q : ℚ) : ℚ := mkRat (q.num * 2) q.den

/-- The `value` field: a `float` when `float(value_str)` succeeded, the raw
string otherwise. -/
inductive PyValue where
  | num : ℚ → PyValue
  | str : String → PyValue
deriving DecidableEq, Repr

structure HealthParameter where
  id : String
  name : String
  value : PyValue
  unit : Option String
  reference_range : String
  status : ParameterStatus
  category : ParameterCategory
  extracted_text : String
deriving DecidableEq, Repr

/-- The value of a digit list read in base 10. -/
def digitsVal (ds : List Char) : Nat :=
  ds.foldl (fun acc c => acc * 10 + (c.toNat - '0'.toNat)) 0

/-- Python `float(s)` on the decimal-literal fragment (surrounding
whitespace, sign, digits with one optional point, optional exponent);
`none` models `ValueError`.  The special forms `inf`/`nan` and digit
underscores are outside the model: every value the pipeline classifies was
captured by `\d+\.?\d*` or `\d+`.  The value is assembled with `mkRat` so
that it is the exact rational `sign * mantissa * 10 ^ exponent`. -/
def pyFloat (s : String) : Option ℚ :=
  let cs := stripChars s.data
  let sp : ℤ × List Char :=
    match cs with
    | '+' :: t => (1, t)
    | '-' :: t => (-1, t)
    | _ => (1, cs)
  let ip := sp.2.takeWhile isDigitChar
  let rest := sp.2.dropWhile isDigitChar
  let fr : List Char × List Char :=
    match rest with
    | '.' :: t => (t.takeWhile isDigitChar, t.dropWhile isDigitChar)
    | _ => ([], rest)
  if ip = [] ∧ fr.1 = [] then none
  else
    let mantNum : ℕ := digitsVal ip * 10 ^ fr.1.length + digitsVal fr.1
    let mantDen : ℕ := 10 ^ fr.1.length
    match fr.2 with
    | [] => some (mkRat (sp.1 * mantNum) mantDen)
    | e :: t =>
      if e = 'e' ∨ e = 'E' then
        let esp : Bool × List Char :=
          match t with
          | '+' :: t2 => (false, t2)
          | '-' :: t2 => (true, t2)
          | _ => (false, t)
        let ed := esp.2.takeWhile isDigitChar
        let t2 := esp.2.dropWhile isDigitChar
        if ed = [] ∨ t2 ≠ [] then none
        else if esp.1 then
          some (mkRat (sp.1 * mantNum) (mantDen * 10 ^ digitsVal ed))
        else
          some (mkRat (sp.1 * mantNum * 10 ^ digitsVal ed) mantDen)
      else none

/-- One entry of the pattern registry `_load_parameter_patterns` (a Python
dict, iterated in insertion order). -/
structure PatternEntry where
  key : String
  reg : Reg
  category : ParameterCategory

/-- `_load_parameter_patterns`, entry for entry and in insertion order.
Each regex is the transliteration of the Python pattern quoted in
`extraction_service.py`. -/
def parameter_patterns : List PatternEntry := [
  -- "glucose": r"glucose.*?(\d+\.?\d*)\s*(mg/dl|mmol/l|mg%)?"
  ⟨"glucose", stdPat (litS "glucose") (unitsR ["mg/dl", "mmol/l", "mg%"]), .blood⟩,
  -- "cholesterol_total": r"(?:total\s+)?cholesterol.*?(\d+\.?\d*)\s*(mg/dl|mmol/l)?"
  ⟨"cholesterol_total", cholTotalR, .lipid⟩,
  -- "cholesterol_ldl": r"ldl.*?cholesterol.*?(\d+\.?\d*)\s*(mg/dl|mmol/l)?"
  ⟨"cholesterol_ldl", cholLdlR, .lipid⟩,
  -- "cholesterol_hdl": r"hdl.*?cholesterol.*?(\d+\.?\d*)\s*(mg/dl|mmol/l)?"
  ⟨"cholesterol_hdl", cholHdlR, .lipid⟩,
  -- "triglycerides": r"triglycerides.*?(\d+\.?\d*)\s*(mg/dl|mmol/l)?"
  ⟨"triglycerides", stdPat (litS "triglycerides") (unitsR ["mg/dl", "mmol/l"]), .lipid⟩,
  -- "hemoglobin": r"h[ae]moglobin.*?(\d+\.?\d*)\s*(g/dl|g/l|gm%)?"
  ⟨"hemoglobin",
    stdPat (cat [.lit 'h', .alt (.lit 'a') (.lit 'e'), litS "moglobin"])
      (unitsR ["g/dl", "g/l", "gm%"]), .blood⟩,
  -- "hematocrit": r"hematocrit.*?(\d+\.?\d*)\s*(%|percent)?"
  ⟨"hematocrit", stdPat (litS "hematocrit") (unitsR ["%", "percent"]), .blood⟩,
  -- "blood_pressure_systolic": r"(?:blood pressure|bp).*?(\d+)/\d+\s*(mmhg)?"
  ⟨"blood_pressure_systolic", bpSystolicR, .blood⟩,
  -- "blood_pressure_diastolic": r"(?:blood pressure|bp).*?\d+/(\d+)\s*(mmhg)?"
  ⟨"blood_pressure_diastolic", bpDiastolicR, .blood⟩,
  -- "creatinine": r"creatinine.*?(\d+\.?\d*)\s*(mg/dl|umol/l|µmol/l)?"
  ⟨"creatinine", stdPat (litS "creatinine") (unitsR ["mg/dl", "umol/l", "µmol/l"]), .kidney⟩,
  -- "bun": r"(?:bun|urea).*?(\d+\.?\d*)\s*(mg/dl|mmol/l)?"
  ⟨"bun", stdPat (.alt (litS "bun") (litS "urea")) (unitsR ["mg/dl", "mmol/l"]), .kidney⟩,
  -- "alt": r"(?:alt|alat|sgpt).*?(\d+\.?\d*)\s*(u/l|iu/l)?"
  ⟨"alt", stdPat (altList [litS "alt", litS "alat", litS "sgpt"]) (unitsR ["u/l", "iu/l"]),
    .liver⟩,
  -- "ast": r"(?:ast|asat|sgot).*?(\d+\.?\d*)\s*(u/l|iu/l)?"
  ⟨"ast", stdPat (altList [litS "ast", litS "asat", litS "sgot"]) (unitsR ["u/l", "iu/l"]),
    .liver⟩,
  -- "platelets": r"platelets.*?(\d+\.?\d*)\s*(lakhs?|/cumm|x10\^3)?"
  ⟨"platelets",
    stdPat (litS "platelets")
      (altList [.seq (litS "lakh") (.opt (.lit 's')), litS "/cumm", litS "x10^3"]), .blood⟩,
  -- "wbc": r"(?:wbc|white blood cells?).*?(\d+\.?\d*)\s*(thousands?|/cumm|x10\^3)?"
  ⟨"wbc",
    stdPat (.alt (litS "wbc") (.seq (litS "white blood cell") (.opt (.lit 's'))))
      (altList [.seq (litS "thousand") (.opt (.lit 's')), litS "/cumm", litS "x10^3"]),
    .blood⟩,
  -- "rbc": r"(?:rbc|red blood cells?).*?(\d+\.?\d*)\s*(millions?|/cumm|x10\^6)?"
  ⟨"rbc",
    stdPat (.alt (litS "rbc") (.seq (litS "red blood cell") (.opt (.lit 's'))))
      (altList [.seq (litS "million") (.opt (.lit 's')), litS "/cumm", litS "x10^6"]),
    .blood⟩,
  -- "vitamin_d": r"vitamin\s*d.*?(\d+\.?\d*)\s*(ng/ml|nmol/l)?"
  ⟨"vitamin_d", stdPat (cat [litS "vitamin", wsStarR, .lit 'd']) (unitsR ["ng/ml", "nmol/l"]),
    .vitamin⟩,
  -- "vitamin_b12": r"vitamin\s*b12.*?(\d+\.?\d*)\s*(pg/ml|pmol/l)?"
  ⟨"vitamin_b12",
    stdPat (cat [litS "vitamin", wsStarR, litS "b12"]) (unitsR ["pg/ml", "pmol/l"]),
    .vitamin⟩,
  -- "tsh": r"tsh.*?(\d+\.?\d*)\s*(miu/l|µiu/ml)?"
  ⟨"tsh", stdPat (litS "tsh") (unitsR ["miu/l", "µiu/ml"]), .hormone⟩]

/-- One entry of `_load_reference_ranges`. -/
structure RefRange where
  min : PyNum
  max : PyNum
  unit : String
deriving DecidableEq, Repr

/-- `_load_reference_ranges`, literal for literal (`70` is a Python int,
`12.0` a Python float; the float literals `12.0, 16.0, 0.6, 1.2, 1.5,
4.5, 4.0, 11.0, 4.2, 5.4, 0.4` are written as the exact rationals
`mkRat 12 1, mkRat 16 1, mkRat 3 5, ...`). -/
def reference_ranges : List (String × RefRange) := [
  ("glucose", ⟨.int 70, .int 100, "mg/dl"⟩),
  ("cholesterol_total", ⟨.int 0, .int 200, "mg/dl"⟩),
  ("cholesterol_ldl", ⟨.int 0, .int 100, "mg/dl"⟩),
  ("cholesterol_hdl", ⟨.int 40, .int 999, "mg/dl"⟩),
  ("triglycerides", ⟨.int 0, .int 150, "mg/dl"⟩),
  ("hemoglobin", ⟨.float (mkRat 12 1), .float (mkRat 16 1), "g/dl"⟩),
  ("hematocrit", ⟨.int 36, .int 48, "%"⟩),
  ("blood_pressure_systolic", ⟨.int 90, .int 120, "mmHg"⟩),
  ("blood_pressure_diastolic", ⟨.int 60, .int 80, "mmHg"⟩),
  ("creatinine", ⟨.float (mkRat 3 5), .float (mkRat 6 5), "mg/dl"⟩),
  ("bun", ⟨.int 7, .int 20, "mg/dl"⟩),
  ("alt", ⟨.int 7, .int 40, "U/L"⟩),
  ("ast", ⟨.int 10, .int 40, "U/L"⟩),
  ("platelets", ⟨.float (mkRat 3 2), .float (mkRat 9 2), "lakhs"⟩),
  ("wbc", ⟨.float (mkRat 4 1), .float (mkRat 11 1), "thousands"⟩),
  ("rbc", ⟨.float (mkRat 21 5), .float (mkRat 27 5), "millions"⟩),
  ("vitamin_d", ⟨.int 30, .int 100, "ng/ml"⟩),
  ("vitamin_b12", ⟨.int 200, .int 900, "pg/ml"⟩),
  ("tsh", ⟨.float (mkRat 2 5), .float (mkRat 4 1), "mIU/L"⟩)]

/-- `param_name in self.reference_ranges` / `self.reference_ranges[...]`. -/
def lookupRange (n : String) : Option RefRange :=
  (reference_ranges.find? (fun kv => kv.1 == n)).map (·.2)

/-- `_load_unit_normalizations`. -/
def unit_normalizations : List (String × String) := [
  ("mg%", "mg/dl"),
  ("gm%", "g/dl"),
  ("µmol/l", "umol/l"),
  ("iu/l", "U/L"),
  ("µiu/ml", "mIU/L"),
  ("miu/l", "mIU/L")]

/-- The unit-normalization step of `_create_parameter`:
`unit.lower().strip()` then `self.unit_normalizations.get(unit, unit)`. -/
def normalizeUnit (u : String) : String :=
  let t := pyStrip (pyLower u)
  ((unit_normalizations.find? (fun kv => kv.1 == t)).map (·.2)).getD t

/-- Python `str.upper` on one ASCII character. -/
def pyUpperChar (c : Char) : Char :=
  if 'a' ≤ c ∧ c ≤ 'z' then Char.ofNat (c.toNat - 32) else c

/-- ASCII letter. -/
def isAsciiAlpha (c : Char) : Bool :=
  ('a' ≤ c ∧ c ≤ 'z') ∨ ('A' ≤ c ∧ c ≤ 'Z')

/-- Worker for Python `str.title()`: uppercase a letter that starts a run
of letters, lowercase the rest. -/
def titleAux : Bool → List Char → List Char
  | _, [] => []
  | prevAlpha, c :: rest =>
    (if isAsciiAlpha c then (if prevAlpha then pyLowerChar c else pyUpperChar c) else c)
      :: titleAux (isAsciiAlpha c) rest

/-- Python `str.title()` (ASCII). -/
def pyTitle (s : String) : String := String.mk (titleAux false s.data)

/-- Python `param_name.replace("_", " ")`. -/
def replaceUnderscore (s : String) : String :=
  String.mk (s.data.map fun c => if c = '_' then ' ' else c)

/-- The `name_mappings` table of `_format_parameter_name`. -/
def name_mappings : List (String × String) := [
  ("glucose", "Glucose"),
  ("cholesterol_total", "Total Cholesterol"),
  ("cholesterol_ldl", "LDL Cholesterol"),
  ("cholesterol_hdl", "HDL Cholesterol"),
  ("triglycerides", "Triglycerides"),
  ("hemoglobin", "Hemoglobin"),
  ("hematocrit", "Hematocrit"),
  ("blood_pressure_systolic", "Systolic BP"),
  ("blood_pressure_diastolic", "Diastolic BP"),
  ("creatinine", "Creatinine"),
  ("bun", "BUN"),
  ("alt", "ALT"),
  ("ast", "AST"),
  ("platelets", "Platelets"),
  ("wbc", "WBC Count"),
  ("rbc", "RBC Count"),
  ("vitamin_d", "Vitamin D"),
  ("vitamin_b12", "Vitamin B12"),
  ("tsh", "TSH")]

/-- `_format_parameter_name`. -/
def _format_parameter_name (n : String) : String :=
  ((name_mappings.find? (fun kv => kv.1 == n)).map (·.2)).getD
    (pyTitle (replaceUnderscore n))

/-- Decimal exponent of a terminating rational: the least `k ≤ 17` with
`q * 10 ^ k` integral, i.e. with `q.den` dividing `10 ^ k` (every float of
the reference table has one decimal digit). -/
def decExp (q : ℚ) : Nat :=
  ((List.range 18).find? (fun k => 10 ^ k % q.den = 0)).getD 17

/-- Python `str()` of a non-negative float literal of the reference table
(`str(12.0) = "12.0"`, `str(0.6) = "0.6"`): `m` is the integer
`q * 10 ^ k`. -/
def floatStr (q : ℚ) : String :=
  let k := decExp q
  let m := (q.num * ((10 ^ k / q.den : ℕ) : ℤ)).toNat
  let ip := m / 10 ^ k
  let fp := m % 10 ^ k
  if k = 0 then toString ip ++ ".0"
  else
    let fs := toString fp
    toString ip ++ "." ++ String.mk (List.replicate (k - fs.length) '0') ++ fs

/-- Python `str()` of a table number, as interpolated by the f-string of
`_get_reference_range_string`. -/
def PyNum.str : PyNum → String
  | .int n => toString n
  | .float q => floatStr q

/-- `_get_reference_range_string`. -/
def _get_reference_range_string (n : String) : String :=
  match lookupRange n with
  | none => ""
  | some r => pyStrip (PyNum.str r.min ++ "-" ++ PyNum.str r.max ++ " " ++ r.unit)

/-- `_determine_status`: classify a value against the registered range;
unregistered parameters and values `float()` rejects are `normal`. -/
def _determine_status (param_name : String) (value : PyValue) : ParameterStatus :=
  match lookupRange param_name with
  | none => .normal
  | some r =>
    let vf : Option ℚ :=
      match value with
      | .num q => some q
      | .str s => pyFloat s
    match vf with
    | none => .normal
    | some v =>
      if v < r.min.toRat then
        if v < ratHalf r.min.toRat then .critical else .low
      else if v > r.max.toRat then
        if v > ratDouble r.max.toRat then .critical else .high
      else .normal

/-- `_create_parameter`: build a `HealthParameter` from the capture state
of a successful match.  `none` models the `except` branch returning `None`
(reached only when capture group 1 did not participate, which makes
`float(None)` raise a `TypeError`). -/
def _create_parameter (gen : Nat → String) (k : Nat) (param_name : String)
    (caps : Caps) (original_line : String) (category : ParameterCategory) :
    Option HealthParameter :=
  match caps.g1 with
  | none => none
  | some valCs =>
    let value_str := String.mk valCs
    let unit : Option String :=
      match caps.g2.map String.mk with
      | some u => if u ≠ "" then some (normalizeUnit u) else some u
      | none => none
    let value : PyValue :=
      match pyFloat value_str with
      | some q => .num q
      | none => .str value_str
    some {
      id := gen k
      name := _format_parameter_name param_name
      value := value
      unit := unit
      reference_range := _get_reference_range_string param_name
      status := _determine_status param_name value
      category := category
      extracted_text := original_line }

/-- One registry entry against one (stripped) line: `re.search` on the
lowercased line (the model of `re.IGNORECASE`), then `_create_parameter`. -/
def tryEntry (gen : Nat → String) (k : Nat) (line : String) (e : PatternEntry) :
    Option HealthParameter :=
  match reSearch e.reg (line.data.map pyLowerChar) with
  | none => none
  | some caps => _create_parameter gen k e.key caps line e.category

/-- The inner pattern loop of `extract_parameters`: registry entries in
insertion order, stopping at the first that matches and constructs
(`break  # Don't match multiple patterns for same line`). -/
def tryPatterns (gen : Nat → String) (k : Nat) (line : String) :
    List PatternEntry → Option HealthParameter
  | [] => none
  | e :: es =>
    match tryEntry gen k line e with
    | some p => some p
    | none => tryPatterns gen k line es

/-- The line loop of `extract_parameters`: strip each line, skip empty and
short (`len < 5`) lines, and collect one parameter per yielding line.  `k`
numbers the uuid4 draws. -/
def extractLoop (gen : Nat → String) : Nat → List (List Char) → List HealthParameter
  | _, [] => []
  | k, raw :: rest =>
    let line := stripChars raw
    if line.isEmpty ∨ line.length < 5 then extractLoop gen k rest
    else
      match tryPatterns gen k (String.mk line) parameter_patterns with
      | some p => p :: extractLoop gen (k + 1) rest
      | none => extractLoop gen k rest

/-- `_deduplicate_parameters` with its `seen_names` set made explicit. -/
def _deduplicate_parameters (seen : List String) :
    List HealthParameter → List HealthParameter
  | [] => []
  | p :: rest =>
    if p.name ∈ seen then _deduplicate_parameters seen rest
    else p :: _deduplicate_parameters (p.name :: seen) rest

/-- The raw (pre-deduplication) parameter list of one extraction run. -/
def rawParameters (gen : Nat → String) (text : String) : List HealthParameter :=
  extractLoop gen 0 (splitOnNl text.data)

/-- `extract_parameters(text)`, with the uuid4 draws made explicit as
`gen`. -/
def extract_parameters (gen : Nat → String) (text : String) : List HealthParameter :=
  _deduplicate_parameters [] (rawParameters gen text)

/-! ### Text acquisition (`app/services/ocr_service.py`)

The external libraries (pdfplumber, PyPDF2, pdf2image + pytesseract, PIL)
are modelled by explicit outcome records: what pages each tier delivered
before finishing or raising.  The service's own control flow is
transliterated. -/

/-- Outcome of the rasterize-and-OCR tier as a whole (`_ocr_pdf_pages`):
either the per-page OCR strings its loop produced, or the message of an
exception raised anywhere in its body (conversion or OCR), which its own
`except` catches. -/
inductive OcrOutcome where
  | ok : List String → OcrOutcome
  | raise : String → OcrOutcome

/-- Outcome of the body of `_extract_text_from_image`: the raw OCR string,
or the message of an exception (decode or OCR failure). -/
inductive ImageOutcome where
  | ok : String → ImageOutcome
  | raise : String → ImageOutcome

/-- What the two structured PDF readers delivered for one file.
`plumberPages` are the page texts pdfplumber's loop accumulated before it
finished or raised (a mid-loop exception keeps the pages already added and
is swallowed).  `pypdf2Pages = none` models `open`/`PdfReader` raising
before `text` is reset to `""`; `some pages` the pages its loop
accumulated after the reset. -/
structure PdfTierEnv where
  plumberPages : List (Option String)
  pypdf2Pages : Option (List (Option String))
  ocr : OcrOutcome

/-- The accumulation `if page_text: text += page_text + "\n"` over one
structured tier's pages (`None` and `""` are falsy and skipped). -/
def tierText (pages : List (Option String)) : String :=
  pages.foldl (fun acc p =>
    match p with
    | some t => if t ≠ "" then acc ++ t ++ "\n" else acc
    | none => acc) ""

/-- The page loop of `_ocr_pdf_pages`: a page whose stripped text is
nonempty contributes a `--- Page N ---` marker and its stripped text. -/
def ocrAccum : Nat → List String → String
  | _, [] => ""
  | i, t :: rest =>
    (if pyStrip t ≠ "" then
      "\n--- Page " ++ toString (i + 1) ++ " ---\n" ++ pyStrip t ++ "\n"
     else "") ++ ocrAccum (i + 1) rest

/-- `_ocr_pdf_pages`: never raises; an exception anywhere in its body is
caught and rendered as an `"OCR processing failed: ..."` string. -/
def _ocr_pdf_pages (o : OcrOutcome) : String :=
  match o with
  | .ok pages => pyStrip (ocrAccum 0 pages)
  | .raise msg => "OCR processing failed: " ++ msg

/-- `_extract_text_from_pdf`: the three-tier cascade.  Each later tier
runs only when `len(text.strip()) < 50`; exceptions in the structured
tiers are swallowed (pdfplumber keeps the partial accumulation, a PyPDF2
failure before the reset keeps tier 1's text, after the reset its own
partial accumulation). -/
def _extract_text_from_pdf (env : PdfTierEnv) : String :=
  let text1 := tierText env.plumberPages
  let text2 :=
    if (pyStrip text1).length < 50 then
      match env.pypdf2Pages with
      | none => text1
      | some pages => tierText pages
    else text1
  let text3 :=
    if (pyStrip text2).length < 50 then _ocr_pdf_pages env.ocr else text2
  pyStrip text3

/-- The basename of a path: everything after the last slash. -/
def basenameChars (cs : List Char) : List Char :=
  (cs.reverse.takeWhile (fun c => c ≠ '/')).reverse

/-- `os.path.splitext(path)[1]`: the suffix of the basename from its last
dot, provided a character before that dot (inside the basename) is not a
dot; otherwise empty. -/
def splitextExt (path : List Char) : List Char :=
  let base := basenameChars path
  let i := base.reverse.findIdx (fun c => c = '.')
  if i < base.length then
    let dotPos := base.length - 1 - i
    if (base.take dotPos).any (fun c => c ≠ '.') then base.drop dotPos else []
  else []

/-- `str()` of a raised `FileUploadError` (an `HTTPException` with status
400; Starlette renders it as `"status_code: detail"`). -/
def fileUploadStr (detail : String) : String := "400: " ++ detail

/-- The library outcomes relevant to one `extract_text_from_file` call. -/
structure OcrFileEnv where
  pdf : PdfTierEnv
  image : ImageOutcome

/-- `os.path.splitext(file_path)[1].lower()`. -/
def fileExt (path : String) : String :=
  String.mk ((splitextExt path.data).map pyLowerChar)

/-- `extract_text_from_file`: extension dispatch (lower-cased `splitext`),
with every escaping exception wrapped by the outer handler into
`FileUploadError(f"Text extraction failed: {e}")`.  The error side of the
`Except` is the detail string of the escaping `FileUploadError`. -/
def extract_text_from_file (env : OcrFileEnv) (file_path : String) :
    Except String String :=
  let ext := fileExt file_path
  if ext = ".pdf" then .ok (_extract_text_from_pdf env.pdf)
  else if ext = ".jpg" ∨ ext = ".jpeg" ∨ ext = ".png" then
    match env.image with
    | .ok raw => .ok (pyStrip raw)
    | .raise msg =>
      .error ("Text extraction failed: " ++ fileUploadStr ("OCR failed: " ++ msg))
  else
    .error ("Text extraction failed: " ++ fileUploadStr ("Unsupported file type: " ++ ext))

/-! ### Auxiliary definitions for the verification layer -/

/-- A `HealthParameter` with its freshly generated uuid blanked: everything
the extraction derives from the text alone. -/
def eraseId (p : HealthParameter) : HealthParameter := { p with id := "" }

/-- The text tier 2 of `_extract_text_from_pdf` leaves in `text` when it
runs: tier 1's text when `open`/`PdfReader` raised, otherwise its own
accumulation. -/
def tier2Text (env : PdfTierEnv) : String :=
  match env.pypdf2Pages with
  | none => tierText env.plumberPages
  | some pages => tierText pages

/-- Declarative matching semantics of the regex fragment: `Matches r s`
says `r` can consume exactly `s` (captures ignored). -/
inductive Matches : Reg → List Char → Prop where
  | eps : Matches .eps []
  | lit (c : Char) : Matches (.lit c) [c]
  | cls (p : Char → Bool) (c : Char) : p c = true → Matches (.cls p) [c]
  | seq {r₁ r₂ : Reg} {s₁ s₂ : List Char} :
      Matches r₁ s₁ → Matches r₂ s₂ → Matches (.seq r₁ r₂) (s₁ ++ s₂)
  | altL {r₁ r₂ : Reg} {s : List Char} : Matches r₁ s → Matches (.alt r₁ r₂) s
  | altR {r₁ r₂ : Reg} {s : List Char} : Matches r₂ s → Matches (.alt r₁ r₂) s
  | optSome {r : Reg} {s : List Char} : Matches r s → Matches (.opt r) s
  | optNone {r : Reg} : Matches (.opt r) []
  | starL (p : Char → Bool) (s : List Char) :
      (∀ c ∈ s, p c = true) → Matches (.starL p) s
  | starG (p : Char → Bool) (s : List Char) :
      (∀ c ∈ s, p c = true) → Matches (.starG p) s
  | group {i : Bool} {r : Reg} {s : List Char} : Matches r s → Matches (.group i r) s

/-- The regex with its capture groups erased (same language). -/
def eraseG : Reg → Reg
  | .group _ r => eraseG r
  | .seq a b => .seq (eraseG a) (eraseG b)
  | .alt a b => .alt (eraseG a) (eraseG b)
  | .opt r => .opt (eraseG r)
  | .eps => .eps
  | .lit c => .lit c
  | .cls p => .cls p
  | .starL p => .starL p
  | .starG p => .starG p

/-- `setsG1 r = true` guarantees every successful match of `r` leaves
capture slot 1 participating. -/
def setsG1 : Reg → Bool
  | .group i r => !i || setsG1 r
  | .seq a b => setsG1 a || setsG1 b
  | .alt a b => setsG1 a && setsG1 b
  | _ => false

/-- A `PdfTierEnv` for the cascade counterexample: a 14-character embedded
text layer, a sufficient (66-character) secondary text layer, and an OCR
tier with distinct output. -/
def cexEnvC8 : PdfTierEnv :=
  { plumberPages := [some "short garbage."]
    pypdf2Pages :=
      some [some "This secondary text layer has more than fifty characters in it."]
    ocr := .ok ["tier three ocr output"] }

/-- An `OcrFileEnv` in which every text-acquisition tier fails or raises:
pdfplumber raises before any page, `PyPDF2.PdfReader` raises, and the
rasterize-and-OCR tier raises with message "boom". -/
def cexEnvC9 : OcrFileEnv :=
  { pdf := { plumberPages := [], pypdf2Pages := none, ocr := .raise "boom" }
    image := .raise "img" }

/-! ### Lemmas: strings and whitespace -/

theorem pyLowerChar_ws {c : Char} (h : isPyWs c = true) : pyLowerChar c = c := by
  simp only [isPyWs, Bool.or_eq_true, decide_eq_true_eq] at h
  rcases h with h | h | h | h | h | h <;> subst h <;> decide

theorem dropWhile_ws_of_forall (ws rest : List Char)
    (h : ∀ c ∈ ws, isPyWs c = true) :
    (ws ++ rest).dropWhile isPyWs = rest.dropWhile isPyWs := by
  induction ws with
  | nil => rfl
  | cons a t ih =>
    have ha := h a (List.mem_cons_self a t)
    simp [List.dropWhile_cons, ha,
      ih fun c hc => h c (List.mem_cons_of_mem a hc)]

theorem dropWhile_ws_nil (ws : List Char) (h : ∀ c ∈ ws, isPyWs c = true) :
    ws.dropWhile isPyWs = [] := by
  simpa using dropWhile_ws_of_forall ws [] h

theorem stripChars_all_ws (cs : List Char) (h : ∀ c ∈ cs, isPyWs c = true) :
    stripChars cs = [] := by
  unfold stripChars
  rw [dropWhile_ws_nil cs h]
  rfl

theorem stripChars_pad (ws₁ ws₂ core : List Char)
    (h₁ : ∀ c ∈ ws₁, isPyWs c = true) (h₂ : ∀ c ∈ ws₂, isPyWs c = true)
    (hh : ∀ c, core.head? = some c → isPyWs c = false)
    (hl : ∀ c, core.getLast? = some c → isPyWs c = false)
    (hne : core ≠ []) :
    stripChars (ws₁ ++ core ++ ws₂) = core := by
  obtain ⟨c0, core', rfl⟩ : ∃ c0 core', core = c0 :: core' := by
    cases core with
    | nil => exact absurd rfl hne
    | cons a t => exact ⟨a, t, rfl⟩
  have hc0 : isPyWs c0 = false := hh c0 rfl
  unfold stripChars
  rw [List.append_assoc, dropWhile_ws_of_forall _ _ h₁, List.cons_append,
    List.dropWhile_cons, hc0]
  simp only [Bool.false_eq_true, if_false]
  rw [← List.cons_append, List.reverse_append]
  have h₂r : ∀ c ∈ ws₂.reverse, isPyWs c = true :=
    fun c hc => h₂ c (List.mem_reverse.mp hc)
  rw [dropWhile_ws_of_forall _ _ h₂r]
  rcases hrev : (c0 :: core').reverse with _ | ⟨b, bs⟩
  · exact absurd hrev (by simp)
  · have hbl : (c0 :: core').getLast? = some b := by
      rw [← List.head?_reverse, hrev]
      rfl
    rw [List.dropWhile_cons, hl b hbl]
    simp only [Bool.false_eq_true, if_false]
    rw [← hrev, List.reverse_reverse]

/-! ### Lemmas: line splitting -/

theorem splitOnNl_ne_nil (cs : List Char) : splitOnNl cs ≠ [] := by
  cases cs with
  | nil => simp [splitOnNl]
  | cons c rest =>
    simp only [splitOnNl]
    split
    · simp
    · split <;> simp

theorem splitOnNl_chars (cs : List Char) :
    ∀ piece ∈ splitOnNl cs, ∀ c ∈ piece, c ∈ cs := by
  induction cs with
  | nil =>
    intro piece hp c hc
    simp [splitOnNl] at hp
    subst hp
    simp at hc
  | cons a rest ih =>
    intro piece hp c hc
    simp only [splitOnNl] at hp
    by_cases ha : a = '\n'
    · rw [if_pos ha] at hp
      rcases List.mem_cons.mp hp with h | h
      · subst h; simp at hc
      · exact List.mem_cons_of_mem a (ih piece h c hc)
    · rw [if_neg ha] at hp
      rcases hr : splitOnNl rest with _ | ⟨h0, t0⟩
      · exact absurd hr (splitOnNl_ne_nil rest)
      · rw [hr] at hp
        rcases List.mem_cons.mp hp with h | h
        · subst h
          rcases List.mem_cons.mp hc with h | h
          · exact h ▸ List.mem_cons_self a rest
          · refine List.mem_cons_of_mem a (ih h0 ?_ c h)
            rw [hr]; exact List.mem_cons_self h0 t0
        · refine List.mem_cons_of_mem a (ih piece ?_ c hc)
          rw [hr]; exact List.mem_cons_of_mem h0 h

/-! ### Lemmas: deduplication -/

theorem dedup_sublist (seen : List String) (l : List HealthParameter) :
    List.Sublist (_deduplicate_parameters seen l) l := by
  induction l generalizing seen with
  | nil => simp [_deduplicate_parameters]
  | cons p rest ih =>
    simp only [_deduplicate_parameters]
    split
    · exact (ih seen).cons p
    · exact (ih (p.name :: seen)).cons₂ p

theorem dedup_notin_seen (seen : List String) (l : List HealthParameter) :
    ∀ q ∈ _deduplicate_parameters seen l, q.name ∉ seen := by
  induction l generalizing seen with
  | nil => simp [_deduplicate_parameters]
  | cons p rest ih =>
    intro q hq
    simp only [_deduplicate_parameters] at hq
    split at hq
    · exact ih seen q hq
    · rcases List.mem_cons.mp hq with h | h
      · subst h
        assumption
      · intro hmem
        exact ih (p.name :: seen) q h (List.mem_cons_of_mem _ hmem)

theorem dedup_nodup_names (seen : List String) (l : List HealthParameter) :
    ((_deduplicate_parameters seen l).map (fun p => p.name)).Nodup := by
  induction l generalizing seen with
  | nil => simp [_deduplicate_parameters]
  | cons p rest ih =>
    simp only [_deduplicate_parameters]
    split
    · exact ih seen
    · simp only [List.map_cons, List.nodup_cons]
      constructor
      · intro hmem
        obtain ⟨q, hq, hqe⟩ := List.mem_map.mp hmem
        exact dedup_notin_seen _ _ q hq (hqe ▸ List.mem_cons_self _ _)
      · exact ih (p.name :: seen)

theorem dedup_first_occurrence (seen : List String) (l : List HealthParameter) :
    ∀ q ∈ _deduplicate_parameters seen l,
      ∃ pre post, l = pre ++ q :: post ∧ ∀ x ∈ pre, x.name ≠ q.name := by
  induction l generalizing seen with
  | nil => simp [_deduplicate_parameters]
  | cons p rest ih =>
    intro q hq
    simp only [_deduplicate_parameters] at hq
    split at hq
    · obtain ⟨pre, post, heq, hpre⟩ := ih seen q hq
      refine ⟨p :: pre, post, by simp [heq], ?_⟩
      intro x hx
      rcases List.mem_cons.mp hx with h | h
      · subst h
        have hns := dedup_notin_seen seen rest q hq
        intro hcon
        rename_i hmem
        exact hns (hcon ▸ hmem)
      · exact hpre x h
    · rcases List.mem_cons.mp hq with h | h
      · subst h
        exact ⟨[], rest, rfl, by simp⟩
      · obtain ⟨pre, post, heq, hpre⟩ := ih (p.name :: seen) q h
        refine ⟨p :: pre, post, by simp [heq], ?_⟩
        intro x hx
        rcases List.mem_cons.mp hx with hx2 | hx2
        · subst hx2
          have hns := dedup_notin_seen (x.name :: seen) rest q h
          intro hcon
          exact hns (hcon ▸ List.mem_cons_self _ _)
        · exact hpre x hx2

theorem dedup_covers (seen : List String) (l : List HealthParameter) :
    ∀ p ∈ l, p.name ∉ seen →
      ∃ q ∈ _deduplicate_parameters seen l, q.name = p.name := by
  induction l generalizing seen with
  | nil => simp
  | cons a rest ih =>
    intro p hp hseen
    simp only [_deduplicate_parameters]
    split
    · rename_i hmem
      rcases List.mem_cons.mp hp with h | h
      · exact absurd (h ▸ hmem) hseen
      · exact ih seen p h hseen
    · rcases List.mem_cons.mp hp with h | h
      · exact ⟨a, List.mem_cons_self _ _, by rw [h]⟩
      · by_cases hpa : p.name = a.name
        · exact ⟨a, List.mem_cons_self _ _, hpa.symm⟩
        · obtain ⟨q, hq, hqe⟩ := ih (a.name :: seen) p h (by
            intro hc
            rcases List.mem_cons.mp hc with hc2 | hc2
            · exact hpa hc2
            · exact hseen hc2)
          exact ⟨q, List.mem_cons_of_mem a hq, hqe⟩

/-! ### Lemmas: the line loop -/

theorem extractLoop_mem {gen : Nat → String} {p : HealthParameter} :
    ∀ (k : Nat) (ls : List (List Char)), p ∈ extractLoop gen k ls →
      ∃ raw ∈ ls, ∃ k2, stripChars raw ≠ [] ∧ 5 ≤ (stripChars raw).length ∧
        tryPatterns gen k2 (String.mk (stripChars raw)) parameter_patterns = some p := by
  intro k ls
  induction ls generalizing k with
  | nil => intro h; simp [extractLoop] at h
  | cons raw rest ih =>
    intro h
    simp only [extractLoop] at h
    split at h
    · obtain ⟨r2, hr2, hrest⟩ := ih k h
      exact ⟨r2, List.mem_cons_of_mem raw hr2, hrest⟩
    · rename_i hcond
      push_neg at hcond
      obtain ⟨hemp, hlen⟩ := hcond
      split at h
      · rename_i q hq
        rcases List.mem_cons.mp h with h2 | h2
        · subst h2
          refine ⟨raw, List.mem_cons_self _ _, k, ?_, by omega, hq⟩
          simpa [List.isEmpty_iff] using hemp
        · obtain ⟨r2, hr2, hrest⟩ := ih (k + 1) h2
          exact ⟨r2, List.mem_cons_of_mem raw hr2, hrest⟩
      · obtain ⟨r2, hr2, hrest⟩ := ih k h
        exact ⟨r2, List.mem_cons_of_mem raw hr2, hrest⟩

theorem extractLoop_ws_nil {gen : Nat → String} :
    ∀ (k : Nat) (ls : List (List Char)),
      (∀ raw ∈ ls, ∀ c ∈ raw, isPyWs c = true) → extractLoop gen k ls = [] := by
  intro k ls
  induction ls generalizing k with
  | nil => intro _; rfl
  | cons raw rest ih =>
    intro h
    have hstrip : stripChars raw = [] :=
      stripChars_all_ws raw (h raw (List.mem_cons_self _ _))
    simp only [extractLoop, hstrip, List.isEmpty_nil, List.length_nil, true_or, if_true]
    exact ih k fun r hr => h r (List.mem_cons_of_mem raw hr)

/-- C2: within one extraction run no two output parameters share a
display-name; the output is a sublist of the raw (line-ordered) parameter
list; each output parameter is the first raw parameter with its name; and
every raw parameter's name is represented in the output (first-match-wins
deduplication in first-occurrence order). -/
theorem c2_dedup_first_wins :
    ∀ (gen : Nat → String) (text : String),
      (((extract_parameters gen text).map (fun p => p.name)).Nodup) ∧
      List.Sublist (extract_parameters gen text) (rawParameters gen text) ∧
      (∀ q ∈ extract_parameters gen text,
        ∃ pre post, rawParameters gen text = pre ++ q :: post ∧
          ∀ x ∈ pre, x.name ≠ q.name) ∧
      (∀ p ∈ rawParameters gen text,
        ∃ q ∈ extract_parameters gen text, q.name = p.name) := by
  intro gen text
  refine ⟨dedup_nodup_names [] _, dedup_sublist [] _,
    dedup_first_occurrence [] _, ?_⟩
  intro p hp
  exact dedup_covers [] _ p hp (by simp)

/-- C6: `extract_parameters` is a total function; whitespace-only input
yields the empty list, and every output parameter comes from a line that
survived the length filter and whose construction succeeded (a line whose
patterns all fail to match-and-construct contributes nothing). -/
theorem c6_totality_empty_input :
    ∀ (gen : Nat → String) (text : String),
      ((∀ c ∈ text.data, isPyWs c = true) → extract_parameters gen text = []) ∧
      (∀ p ∈ extract_parameters gen text,
        ∃ raw ∈ splitOnNl text.data, ∃ k,
          stripChars raw ≠ [] ∧ 5 ≤ (stripChars raw).length ∧
          tryPatterns gen k (String.mk (stripChars raw)) parameter_patterns = some p) := by
  intro gen text
  constructor
  · intro hws
    have hraw : rawParameters gen text = [] := by
      apply extractLoop_ws_nil
      intro raw hraw c hc
      exact hws c (splitOnNl_chars text.data raw hraw c hc)
    show _deduplicate_parameters [] (rawParameters gen text) = []
    rw [hraw]
    rfl
  · intro p hp
    have hpr : p ∈ rawParameters gen text :=
      (dedup_sublist [] (rawParameters gen text)).subset hp
    exact extractLoop_mem 0 (splitOnNl text.data) hpr

/-! ### Lemmas: status classification -/

theorem ratHalf_eq (q : ℚ) : ratHalf q = q * (1 / 2) := by
  have hd : (q.den : ℚ) ≠ 0 := Nat.cast_ne_zero.mpr q.den_nz
  unfold ratHalf
  rw [Rat.mkRat_eq_div]
  push_cast
  conv_rhs => rw [← Rat.num_div_den q]
  field_simp

theorem ratDouble_eq (q : ℚ) : ratDouble q = q * 2 := by
  have hd : (q.den : ℚ) ≠ 0 := Nat.cast_ne_zero.mpr q.den_nz
  unfold ratDouble
  rw [Rat.mkRat_eq_div]
  push_cast
  conv_rhs => rw [← Rat.num_div_den q]
  field_simp

theorem reference_ranges_sane :
    ∀ kv ∈ reference_ranges,
      0 ≤ kv.2.min.toRat ∧ kv.2.min.toRat ≤ kv.2.max.toRat := by decide

theorem lookupRange_mem {n : String} {r : RefRange} (h : lookupRange n = some r) :
    ∃ kv ∈ reference_ranges, kv.2 = r := by
  unfold lookupRange at h
  obtain ⟨kv, hfind, hval⟩ := Option.map_eq_some'.mp h
  exact ⟨kv, List.mem_of_find?_eq_some hfind, hval⟩

/-- C1: classification against a registered range `[min, max]`: values
equal to `min` or `max` (and values inside the range) are `normal`; values
below `min` are `low` unless below `min * 0.5` (`critical`); values above
`max` are `high` unless above `max * 2` (`critical`).  Parameters without
a registered range, and values `float()` rejects, are always `normal`. -/
theorem c1_status_classification :
    (∀ (name : String) (r : RefRange), lookupRange name = some r → ∀ v : ℚ,
      ((v = r.min.toRat ∨ v = r.max.toRat) →
        _determine_status name (.num v) = .normal) ∧
      (v < r.min.toRat * (1 / 2) → _determine_status name (.num v) = .critical) ∧
      (v < r.min.toRat → ¬v < r.min.toRat * (1 / 2) →
        _determine_status name (.num v) = .low) ∧
      (r.max.toRat * 2 < v → _determine_status name (.num v) = .critical) ∧
      (r.max.toRat < v → ¬r.max.toRat * 2 < v →
        _determine_status name (.num v) = .high) ∧
      (r.min.toRat ≤ v → v ≤ r.max.toRat →
        _determine_status name (.num v) = .normal)) ∧
    (∀ (name : String) (v : PyValue),
      lookupRange name = none → _determine_status name v = .normal) ∧
    (∀ (name : String) (s : String),
      pyFloat s = none → _determine_status name (.str s) = .normal) := by
  refine ⟨?_, ?_, ?_⟩
  · intro name r h v
    obtain ⟨kv, hmem, hkv⟩ := lookupRange_mem h
    obtain ⟨h0, hmm⟩ := hkv ▸ reference_ranges_sane kv hmem
    simp only [_determine_status, h, ratHalf_eq, ratDouble_eq]
    refine ⟨?_, ?_, ?_, ?_, ?_, ?_⟩
    · rintro (rfl | rfl) <;> split_ifs <;> first | rfl | linarith
    · intro h1; split_ifs <;> first | rfl | linarith
    · intro h1 h2; split_ifs <;> first | rfl | linarith
    · intro h1; split_ifs <;> first | rfl | linarith
    · intro h1 h2; split_ifs <;> first | rfl | linarith
    · intro h1 h2; split_ifs <;> first | rfl | linarith
  · intro name v h
    simp only [_determine_status, h]
  · intro name s h
    simp only [_determine_status, h]
    cases lookupRange name <;> simp

/-! ### C7: unit normalization -/

theorem map_ws_id (ws : List Char) (h : ∀ c ∈ ws, isPyWs c = true) :
    ws.map pyLowerChar = ws := by
  induction ws with
  | nil => rfl
  | cons a t ih =>
    rw [List.map_cons, pyLowerChar_ws (h a (List.mem_cons_self a t)),
      ih fun c hc => h c (List.mem_cons_of_mem a hc)]

theorem unit_normalizations_find_self :
    ∀ kv ∈ unit_normalizations,
      unit_normalizations.find? (fun x => x.1 == kv.1) = some kv := by decide

theorem unit_keys_ends :
    ∀ kv ∈ unit_normalizations,
      kv.1.data ≠ [] ∧
      (kv.1.data.head?.all fun c => !isPyWs c) = true ∧
      (kv.1.data.getLast?.all fun c => !isPyWs c) = true := by decide

/-- C7 counterexample: the unit token "MG/L" is in no row of the UnitAlias
table, yet normalization does not pass it through unchanged: it comes out
lowercased as "mg/l". -/
theorem c7_counterexample :
    (∀ kv ∈ unit_normalizations, kv.1 ≠ "MG/L" ∧ kv.2 ≠ "MG/L") ∧
    normalizeUnit "MG/L" ≠ "MG/L" ∧ normalizeUnit "MG/L" = "mg/l" := by decide

/-- C7 amended: every alias of the UnitAlias table maps to its canonical
form regardless of surrounding whitespace and of ASCII case (any `mid`
that lowercases to the alias); a unit token that is not an alias after
lowercasing and trimming passes through lowercased and trimmed but
otherwise unchanged. -/
theorem c7_unit_normalization :
    (∀ kv ∈ unit_normalizations, ∀ ws₁ ws₂ mid : List Char,
      (∀ c ∈ ws₁, isPyWs c = true) → (∀ c ∈ ws₂, isPyWs c = true) →
      mid.map pyLowerChar = kv.1.data →
      normalizeUnit (String.mk (ws₁ ++ mid ++ ws₂)) = kv.2) ∧
    (∀ u : String,
      unit_normalizations.find? (fun kv => kv.1 == pyStrip (pyLower u)) = none →
      normalizeUnit u = pyStrip (pyLower u)) := by
  constructor
  · intro kv hkv ws₁ ws₂ mid h₁ h₂ hmid
    obtain ⟨hne, hh, hl⟩ := unit_keys_ends kv hkv
    have hlow : (ws₁ ++ mid ++ ws₂).map pyLowerChar = ws₁ ++ kv.1.data ++ ws₂ := by
      simp only [List.map_append]
      rw [map_ws_id ws₁ h₁, map_ws_id ws₂ h₂, hmid]
    have ht : pyStrip (pyLower (String.mk (ws₁ ++ mid ++ ws₂))) = kv.1 := by
      show String.mk (stripChars ((ws₁ ++ mid ++ ws₂).map pyLowerChar)) = kv.1
      rw [hlow, stripChars_pad ws₁ ws₂ kv.1.data h₁ h₂ ?_ ?_ hne]
      · intro c hc
        rw [hc] at hh
        simpa using hh
      · intro c hc
        rw [hc] at hl
        simpa using hl
    simp only [normalizeUnit, ht, unit_normalizations_find_self kv hkv,
      Option.map_some]
    rfl
  · intro u h
    simp [normalizeUnit, h]

/-! ### C8 and C9: the text-acquisition cascade and its failure modes -/

theorem extract_pdf_eq (env : PdfTierEnv) :
    _extract_text_from_pdf env =
      pyStrip (if (pyStrip (if (pyStrip (tierText env.plumberPages)).length < 50
          then tier2Text env else tierText env.plumberPages)).length < 50
        then _ocr_pdf_pages env.ocr
        else if (pyStrip (tierText env.plumberPages)).length < 50
          then tier2Text env else tierText env.plumberPages) := rfl

/-- The cascade's four behavioural cases; shared by the C8 and C9
theorems. -/
theorem pdf_tiers (env : PdfTierEnv) :
    (50 ≤ (pyStrip (tierText env.plumberPages)).length →
      _extract_text_from_pdf env = pyStrip (tierText env.plumberPages)) ∧
    ((pyStrip (tierText env.plumberPages)).length < 50 →
      50 ≤ (pyStrip (tier2Text env)).length →
      _extract_text_from_pdf env = pyStrip (tier2Text env)) ∧
    ((pyStrip (tierText env.plumberPages)).length < 50 →
      (pyStrip (tier2Text env)).length < 50 →
      _extract_text_from_pdf env = pyStrip (_ocr_pdf_pages env.ocr)) ∧
    (env.pypdf2Pages = none →
      (pyStrip (tierText env.plumberPages)).length < 50 →
      _extract_text_from_pdf env = pyStrip (_ocr_pdf_pages env.ocr)) := by
  refine ⟨?_, ?_, ?_, ?_⟩
  · intro h1
    rw [extract_pdf_eq]
    split_ifs <;> first | rfl | omega
  · intro h1 h2
    rw [extract_pdf_eq]
    split_ifs <;> first | rfl | omega
  · intro h1 h2
    rw [extract_pdf_eq]
    split_ifs <;> first | rfl | omega
  · intro hp h1
    have h2 : (pyStrip (tier2Text env)).length < 50 := by
      unfold tier2Text
      rw [hp]
      exact h1
    rw [extract_pdf_eq]
    split_ifs <;> first | rfl | omega

/-- C8 counterexample: a PDF whose embedded text layer yields fewer than
50 trimmed characters but whose secondary structured layer yields enough
ends with the secondary tier's text, not the OCR tier's output. -/
theorem c8_counterexample :
    (pyStrip (tierText cexEnvC8.plumberPages)).length < 50 ∧
    _extract_text_from_pdf cexEnvC8 ≠ pyStrip (_ocr_pdf_pages cexEnvC8.ocr) ∧
    _extract_text_from_pdf cexEnvC8 = pyStrip (tier2Text cexEnvC8) := by decide

/-- C8 amended: each later tier of the PDF cascade runs only when the
prior tier's trimmed output is shorter than 50 characters; when every
structured tier's trimmed output is shorter than 50 characters the final
text is the OCR tier's output; an exception in the secondary structured
tier (before its accumulator reset) is swallowed and leaves tier 1's
insufficient text, so the cascade still falls through to OCR. -/
theorem c8_pdf_cascade :
    ∀ env : PdfTierEnv,
      (50 ≤ (pyStrip (tierText env.plumberPages)).length →
        _extract_text_from_pdf env = pyStrip (tierText env.plumberPages)) ∧
      ((pyStrip (tierText env.plumberPages)).length < 50 →
        50 ≤ (pyStrip (tier2Text env)).length →
        _extract_text_from_pdf env = pyStrip (tier2Text env)) ∧
      ((pyStrip (tierText env.plumberPages)).length < 50 →
        (pyStrip (tier2Text env)).length < 50 →
        _extract_text_from_pdf env = pyStrip (_ocr_pdf_pages env.ocr)) ∧
      (env.pypdf2Pages = none →
        (pyStrip (tierText env.plumberPages)).length < 50 →
        _extract_text_from_pdf env = pyStrip (_ocr_pdf_pages env.ocr)) :=
  fun env => pdf_tiers env

/-- C9 counterexample: with every text-acquisition tier failing or
raising (pdfplumber raises before any page, `PdfReader` raises, the OCR
tier raises "boom"), `extract_text_from_file` returns a plain string — the
"OCR processing failed" message — instead of raising an
extraction-failed error. -/
theorem c9_counterexample :
    extract_text_from_file cexEnvC9 "report.pdf" =
      Except.ok "OCR processing failed: boom" := by rfl

/-- C9 amended: for PDF files `extract_text_from_file` never raises — even
when every tier fails or raises it returns `_extract_text_from_pdf`'s
string (the "OCR processing failed: ..." message when the OCR tier
raised); for image files an OCR failure raises a `FileUploadError`
carrying the cause; an unrecognized extension fails fast with an
unsupported-type `FileUploadError` (both wrapped by the outer handler). -/
theorem c9_extraction_errors :
    ∀ (env : OcrFileEnv) (path : String),
      (fileExt path = ".pdf" →
        extract_text_from_file env path = .ok (_extract_text_from_pdf env.pdf)) ∧
      (fileExt path = ".pdf" → ∀ msg, env.pdf.ocr = .raise msg →
        (pyStrip (tierText env.pdf.plumberPages)).length < 50 →
        (pyStrip (tier2Text env.pdf)).length < 50 →
        extract_text_from_file env path =
          .ok (pyStrip ("OCR processing failed: " ++ msg))) ∧
      (∀ msg,
        (fileExt path = ".jpg" ∨ fileExt path = ".jpeg" ∨ fileExt path = ".png") →
        env.image = .raise msg →
        extract_text_from_file env path =
          .error ("Text extraction failed: 400: OCR failed: " ++ msg)) ∧
      (fileExt path ≠ ".pdf" → fileExt path ≠ ".jpg" → fileExt path ≠ ".jpeg" →
        fileExt path ≠ ".png" →
        extract_text_from_file env path =
          .error ("Text extraction failed: 400: Unsupported file type: " ++
            fileExt path)) := by
  intro env path
  refine ⟨?_, ?_, ?_, ?_⟩
  · intro h
    simp [extract_text_from_file, h]
  · intro h msg hmsg h1 h2
    have hc := (pdf_tiers env.pdf).2.2.1 h1 h2
    rw [hmsg] at hc
    simp only [extract_text_from_file, h, if_pos]
    rw [hc]
    rfl
  · intro msg hext himg
    rcases hext with h | h | h <;>
      simp only [extract_text_from_file, h, himg, fileUploadStr] <;>
      simp <;>
      rw [← String.append_assoc, ← String.append_assoc] <;>
      exact congrArg (fun s => s ++ msg) (by decide)
  · intro h1 h2 h3 h4
    simp [extract_text_from_file, h1, h2, h3, h4, fileUploadStr]
    rw [← String.append_assoc, ← String.append_assoc]
    exact congrArg (fun s => s ++ fileExt path) (by decide)

/-! ### C5: determinism up to the freshly drawn uuid -/

theorem eraseId_name (p : HealthParameter) : (eraseId p).name = p.name := rfl

theorem create_eraseId (g₁ g₂ : Nat → String) (k₁ k₂ : Nat) (n : String)
    (caps : Caps) (line : String) (cat : ParameterCategory) :
    (_create_parameter g₁ k₁ n caps line cat).map eraseId =
      (_create_parameter g₂ k₂ n caps line cat).map eraseId := by
  unfold _create_parameter
  rcases hc : caps.g1 with _ | v <;> simp [eraseId]

theorem tryEntry_eraseId (g₁ g₂ : Nat → String) (k₁ k₂ : Nat) (line : String)
    (e : PatternEntry) :
    (tryEntry g₁ k₁ line e).map eraseId = (tryEntry g₂ k₂ line e).map eraseId := by
  unfold tryEntry
  cases reSearch e.reg (line.data.map pyLowerChar) with
  | none => rfl
  | some caps => exact create_eraseId g₁ g₂ k₁ k₂ e.key caps line e.category

theorem tryPatterns_eraseId (g₁ g₂ : Nat → String) (k₁ k₂ : Nat) (line : String) :
    ∀ es, (tryPatterns g₁ k₁ line es).map eraseId =
      (tryPatterns g₂ k₂ line es).map eraseId := by
  intro es
  induction es with
  | nil => rfl
  | cons e rest ih =>
    simp only [tryPatterns]
    have he := tryEntry_eraseId g₁ g₂ k₁ k₂ line e
    cases h1 : tryEntry g₁ k₁ line e with
    | none =>
      cases h2 : tryEntry g₂ k₂ line e with
      | none => exact ih
      | some p => rw [h1, h2] at he; simp at he
    | some p =>
      cases h2 : tryEntry g₂ k₂ line e with
      | none => rw [h1, h2] at he; simp at he
      | some q => rw [h1, h2] at he; simpa using he

theorem extractLoop_eraseId (g₁ g₂ : Nat → String) :
    ∀ (ls : List (List Char)) (k₁ k₂ : Nat),
      (extractLoop g₁ k₁ ls).map eraseId = (extractLoop g₂ k₂ ls).map eraseId := by
  intro ls
  induction ls with
  | nil => intro _ _; rfl
  | cons raw rest ih =>
    intro k₁ k₂
    simp only [extractLoop]
    split
    · exact ih k₁ k₂
    · have he := tryPatterns_eraseId g₁ g₂ k₁ k₂ (String.mk (stripChars raw))
        parameter_patterns
      cases h1 : tryPatterns g₁ k₁ (String.mk (stripChars raw)) parameter_patterns with
      | none =>
        cases h2 : tryPatterns g₂ k₂ (String.mk (stripChars raw)) parameter_patterns with
        | none => exact ih k₁ k₂
        | some p => rw [h1, h2] at he; simp at he
      | some p =>
        cases h2 : tryPatterns g₂ k₂ (String.mk (stripChars raw)) parameter_patterns with
        | none => rw [h1, h2] at he; simp at he
        | some q =>
          rw [h1, h2] at he
          simp only [List.map_cons]
          rw [ih (k₁ + 1) (k₂ + 1)]
          simp at he
          rw [he]

theorem dedup_map_eraseId (seen : List String) :
    ∀ l, (_deduplicate_parameters seen l).map eraseId =
      _deduplicate_parameters seen (l.map eraseId) := by
  intro l
  induction l generalizing seen with
  | nil => rfl
  | cons p rest ih =>
    simp only [_deduplicate_parameters, List.map_cons, eraseId_name]
    split <;> simp [ih, eraseId_name]

/-- C5 counterexample: two calls of `extract_parameters` on the same text
with different uuid draws are not byte-identical — the `id` field differs. -/
theorem c5_counterexample :
    extract_parameters (fun _ => "id-a") "Glucose: 95 mg/dl" ≠
      extract_parameters (fun _ => "id-b") "Glucose: 95 mg/dl" := by decide

/-- C5 amended: `extract_parameters` is deterministic in every field
except the freshly drawn uuid `id`: for any two uuid generators the two
outputs agree record for record once `id` is blanked. -/
theorem c5_deterministic_modulo_id :
    ∀ (g₁ g₂ : Nat → String) (text : String),
      (extract_parameters g₁ text).map eraseId =
        (extract_parameters g₂ text).map eraseId := by
  intro g₁ g₂ text
  show (_deduplicate_parameters [] (rawParameters g₁ text)).map eraseId =
    (_deduplicate_parameters [] (rawParameters g₂ text)).map eraseId
  rw [dedup_map_eraseId, dedup_map_eraseId]
  unfold rawParameters
  rw [extractLoop_eraseId g₁ g₂ (splitOnNl text.data) 0 0]

/-! ### Lemmas: the regex engine agrees with the declarative semantics -/

theorem starLAux_sound (p : Char → Bool) :
    ∀ (s suf : List Char), suf ∈ starLAux p s →
      ∃ pre, pre ++ suf = s ∧ ∀ c ∈ pre, p c = true := by
  intro s
  induction s with
  | nil =>
    intro suf h
    simp only [starLAux, List.mem_singleton] at h
    subst h
    exact ⟨[], rfl, by simp⟩
  | cons a rest ih =>
    intro suf h
    simp only [starLAux] at h
    rcases List.mem_cons.mp h with h | h
    · subst h
      exact ⟨[], rfl, by simp⟩
    · by_cases hp : p a = true
      · rw [if_pos hp] at h
        obtain ⟨pre, hpre, hall⟩ := ih suf h
        refine ⟨a :: pre, by rw [List.cons_append, hpre], ?_⟩
        intro c hc
        rcases List.mem_cons.mp hc with h2 | h2
        · exact h2 ▸ hp
        · exact hall c h2
      · rw [if_neg hp] at h
        simp at h

theorem starGAux_sound (p : Char → Bool) :
    ∀ (s suf : List Char), suf ∈ starGAux p s →
      ∃ pre, pre ++ suf = s ∧ ∀ c ∈ pre, p c = true := by
  intro s
  induction s with
  | nil =>
    intro suf h
    simp only [starGAux, List.mem_singleton] at h
    subst h
    exact ⟨[], rfl, by simp⟩
  | cons a rest ih =>
    intro suf h
    simp only [starGAux] at h
    by_cases hp : p a = true
    · rw [if_pos hp] at h
      rcases List.mem_append.mp h with h | h
      · obtain ⟨pre, hpre, hall⟩ := ih suf h
        refine ⟨a :: pre, by rw [List.cons_append, hpre], ?_⟩
        intro c hc
        rcases List.mem_cons.mp hc with h2 | h2
        · exact h2 ▸ hp
        · exact hall c h2
      · simp only [List.mem_singleton] at h
        subst h
        exact ⟨[], rfl, by simp⟩
    · rw [if_neg hp] at h
      simp only [List.mem_singleton] at h
      subst h
      exact ⟨[], rfl, by simp⟩

theorem starLAux_complete (p : Char → Bool) :
    ∀ (pre suf : List Char), (∀ c ∈ pre, p c = true) →
      suf ∈ starLAux p (pre ++ suf) := by
  intro pre
  induction pre with
  | nil =>
    intro suf _
    cases suf with
    | nil => simp [starLAux]
    | cons a rest => simp [starLAux]
  | cons a t ih =>
    intro suf h
    have hpa := h a (List.mem_cons_self a t)
    rw [List.cons_append]
    show suf ∈ starLAux p (a :: (t ++ suf))
    simp only [starLAux, if_pos hpa]
    exact List.mem_cons_of_mem _ (ih suf fun c hc => h c (List.mem_cons_of_mem a hc))

theorem starGAux_complete (p : Char → Bool) :
    ∀ (pre suf : List Char), (∀ c ∈ pre, p c = true) →
      suf ∈ starGAux p (pre ++ suf) := by
  intro pre
  induction pre with
  | nil =>
    intro suf _
    cases suf with
    | nil => simp [starGAux]
    | cons a rest =>
      simp only [starGAux, List.nil_append]
      by_cases hp : p a = true
      · rw [if_pos hp]
        exact List.mem_append_right _ (by simp)
      · rw [if_neg hp]
        simp
  | cons a t ih =>
    intro suf h
    have hpa := h a (List.mem_cons_self a t)
    rw [List.cons_append]
    show suf ∈ starGAux p (a :: (t ++ suf))
    simp only [starGAux, if_pos hpa]
    exact List.mem_append_left _ (ih suf fun c hc => h c (List.mem_cons_of_mem a hc))

theorem matchList_sound :
    ∀ (r : Reg) (caps : Caps) (s : List Char) (pr : List Char × Caps),
      pr ∈ matchList r caps s → ∃ pre, pre ++ pr.1 = s ∧ Matches r pre := by
  intro r
  induction r with
  | eps =>
    intro caps s pr h
    simp only [matchList, List.mem_singleton] at h
    subst h
    exact ⟨[], rfl, .eps⟩
  | lit c =>
    intro caps s pr h
    cases s with
    | nil => simp [matchList] at h
    | cons a rest =>
      simp only [matchList] at h
      by_cases ha : a = c
      · rw [if_pos ha] at h
        simp only [List.mem_singleton] at h
        subst h
        subst ha
        exact ⟨[a], rfl, .lit a⟩
      · rw [if_neg ha] at h
        simp at h
  | cls p =>
    intro caps s pr h
    cases s with
    | nil => simp [matchList] at h
    | cons a rest =>
      simp only [matchList] at h
      by_cases ha : p a = true
      · rw [if_pos ha] at h
        simp only [List.mem_singleton] at h
        subst h
        exact ⟨[a], rfl, .cls p a ha⟩
      · rw [if_neg ha] at h
        simp at h
  | seq r₁ r₂ ih₁ ih₂ =>
    intro caps s pr h
    simp only [matchList] at h
    obtain ⟨pr₁, h1, h2⟩ := List.mem_flatMap.mp h
    obtain ⟨pre₁, hpre₁, m₁⟩ := ih₁ caps s pr₁ h1
    obtain ⟨pre₂, hpre₂, m₂⟩ := ih₂ pr₁.2 pr₁.1 pr h2
    refine ⟨pre₁ ++ pre₂, ?_, .seq m₁ m₂⟩
    rw [List.append_assoc, hpre₂, hpre₁]
  | alt r₁ r₂ ih₁ ih₂ =>
    intro caps s pr h
    simp only [matchList] at h
    rcases List.mem_append.mp h with h | h
    · obtain ⟨pre, hpre, m⟩ := ih₁ caps s pr h
      exact ⟨pre, hpre, .altL m⟩
    · obtain ⟨pre, hpre, m⟩ := ih₂ caps s pr h
      exact ⟨pre, hpre, .altR m⟩
  | opt r ih =>
    intro caps s pr h
    simp only [matchList] at h
    rcases List.mem_append.mp h with h | h
    · obtain ⟨pre, hpre, m⟩ := ih caps s pr h
      exact ⟨pre, hpre, .optSome m⟩
    · simp only [List.mem_singleton] at h
      subst h
      exact ⟨[], rfl, .optNone⟩
  | starL p =>
    intro caps s pr h
    simp only [matchList] at h
    obtain ⟨suf, hsuf, heq⟩ := List.mem_map.mp h
    obtain ⟨pre, hpre, hall⟩ := starLAux_sound p s suf hsuf
    subst heq
    exact ⟨pre, hpre, .starL p pre hall⟩
  | starG p =>
    intro caps s pr h
    simp only [matchList] at h
    obtain ⟨suf, hsuf, heq⟩ := List.mem_map.mp h
    obtain ⟨pre, hpre, hall⟩ := starGAux_sound p s suf hsuf
    subst heq
    exact ⟨pre, hpre, .starG p pre hall⟩
  | group i r ih =>
    intro caps s pr h
    simp only [matchList] at h
    obtain ⟨pr₀, h0, heq⟩ := List.mem_map.mp h
    obtain ⟨pre, hpre, m⟩ := ih caps s pr₀ h0
    subst heq
    exact ⟨pre, hpre, .group m⟩

theorem matchList_complete {r : Reg} {pre : List Char} (m : Matches r pre) :
    ∀ (caps : Caps) (suf : List Char),
      ∃ caps2, (suf, caps2) ∈ matchList r caps (pre ++ suf) := by
  induction m with
  | eps => intro caps suf; exact ⟨caps, by simp [matchList]⟩
  | lit c => intro caps suf; exact ⟨caps, by simp [matchList]⟩
  | cls p c hp => intro caps suf; exact ⟨caps, by simp [matchList, hp]⟩
  | seq m₁ m₂ ih₁ ih₂ =>
    rename_i r₁ r₂ s₁ s₂
    intro caps suf
    obtain ⟨c1, h1⟩ := ih₁ caps (s₂ ++ suf)
    obtain ⟨c2, h2⟩ := ih₂ c1 suf
    refine ⟨c2, ?_⟩
    simp only [matchList, List.append_assoc]
    exact List.mem_flatMap.mpr ⟨(s₂ ++ suf, c1), h1, h2⟩
  | altL m ih =>
    intro caps suf
    obtain ⟨c1, h1⟩ := ih caps suf
    exact ⟨c1, List.mem_append_left _ h1⟩
  | altR m ih =>
    intro caps suf
    obtain ⟨c1, h1⟩ := ih caps suf
    exact ⟨c1, List.mem_append_right _ h1⟩
  | optSome m ih =>
    intro caps suf
    obtain ⟨c1, h1⟩ := ih caps suf
    exact ⟨c1, List.mem_append_left _ h1⟩
  | optNone =>
    intro caps suf
    exact ⟨caps, List.mem_append_right _ (by simp)⟩
  | starL p s hall =>
    intro caps suf
    exact ⟨caps, List.mem_map_of_mem _ (starLAux_complete p s suf hall)⟩
  | starG p s hall =>
    intro caps suf
    exact ⟨caps, List.mem_map_of_mem _ (starGAux_complete p s suf hall)⟩
  | group m ih =>
    rename_i i r s
    intro caps suf
    obtain ⟨c0, h0⟩ := ih caps suf
    exact ⟨_, List.mem_map_of_mem _ h0⟩

theorem reSearch_sound :
    ∀ (s : List Char) (r : Reg) (caps : Caps), reSearch r s = some caps →
      ∃ t, List.IsSuffix t s ∧ ∃ pr ∈ matchList r Caps.empty t, pr.2 = caps := by
  intro s
  induction s with
  | nil =>
    intro r caps h
    simp only [reSearch] at h
    cases hm : matchList r Caps.empty [] with
    | nil => rw [hm] at h; cases h
    | cons pr rest =>
      rw [hm] at h
      exact ⟨[], List.suffix_refl [], pr,
        by rw [hm]; exact List.mem_cons_self pr rest, Option.some.inj h⟩
  | cons a rest ih =>
    intro r caps h
    simp only [reSearch] at h
    cases hm : matchList r Caps.empty (a :: rest) with
    | cons pr l =>
      rw [hm] at h
      exact ⟨a :: rest, List.suffix_refl _, pr,
        by rw [hm]; exact List.mem_cons_self pr l, Option.some.inj h⟩
    | nil =>
      rw [hm] at h
      obtain ⟨t, hts, hpr⟩ := ih r caps h
      exact ⟨t, hts.trans (List.suffix_cons a rest), hpr⟩

theorem reSearch_isSome_of_suffix :
    ∀ (s t : List Char), List.IsSuffix t s → ∀ r, matchList r Caps.empty t ≠ [] →
      (reSearch r s).isSome = true := by
  intro s
  induction s with
  | nil =>
    intro t hts r hne
    have ht : t = [] := List.suffix_nil.mp hts
    subst ht
    simp only [reSearch]
    cases hm : matchList r Caps.empty [] with
    | nil => exact absurd hm hne
    | cons pr l => simp
  | cons a rest ih =>
    intro t hts r hne
    simp only [reSearch]
    cases hm : matchList r Caps.empty (a :: rest) with
    | cons pr l => simp
    | nil =>
      obtain ⟨pre, hpre⟩ := hts
      cases pre with
      | nil =>
        simp only [List.nil_append] at hpre
        subst hpre
        exact absurd hm hne
      | cons b bs =>
        rw [List.cons_append] at hpre
        injection hpre with hb hrest
        exact ih t ⟨bs, hrest⟩ r hne

/-- `re.search` succeeds exactly when the pattern matches some substring. -/
theorem reSearch_isSome_iff (r : Reg) (s : List Char) :
    (reSearch r s).isSome = true ↔ ∃ a b c, s = a ++ b ++ c ∧ Matches r b := by
  constructor
  · intro h
    obtain ⟨caps, hc⟩ := Option.isSome_iff_exists.mp h
    obtain ⟨t, ⟨a, ha⟩, pr, hpr, _⟩ := reSearch_sound s r caps hc
    obtain ⟨b, hb, m⟩ := matchList_sound r Caps.empty t pr hpr
    refine ⟨a, b, pr.1, ?_, m⟩
    rw [← ha, ← hb, List.append_assoc]
  · rintro ⟨a, b, c, rfl, m⟩
    obtain ⟨caps2, hmem⟩ := matchList_complete m Caps.empty c
    apply reSearch_isSome_of_suffix (a ++ b ++ c) (b ++ c) ⟨a, by rw [List.append_assoc]⟩ r
    intro hnil
    rw [hnil] at hmem
    cases hmem

/-! ### Lemmas: the capture groups do not change the language -/

theorem matches_eraseG_mp {r : Reg} {s : List Char} (m : Matches r s) :
    Matches (eraseG r) s := by
  induction m with
  | eps => exact .eps
  | lit c => exact .lit c
  | cls p c hp => exact .cls p c hp
  | seq _ _ ih₁ ih₂ => exact .seq ih₁ ih₂
  | altL _ ih => exact .altL ih
  | altR _ ih => exact .altR ih
  | optSome _ ih => exact .optSome ih
  | optNone => exact .optNone
  | starL p s hall => exact .starL p s hall
  | starG p s hall => exact .starG p s hall
  | group _ ih => exact ih

theorem matches_eraseG_mpr :
    ∀ (r : Reg) (s : List Char), Matches (eraseG r) s → Matches r s := by
  intro r
  induction r with
  | eps => intro s h; exact h
  | lit c => intro s h; exact h
  | cls p => intro s h; exact h
  | seq r₁ r₂ ih₁ ih₂ =>
    intro s h
    cases h with
    | seq m₁ m₂ => exact .seq (ih₁ _ m₁) (ih₂ _ m₂)
  | alt r₁ r₂ ih₁ ih₂ =>
    intro s h
    cases h with
    | altL m => exact .altL (ih₁ _ m)
    | altR m => exact .altR (ih₂ _ m)
  | opt r ih =>
    intro s h
    cases h with
    | optSome m => exact .optSome (ih _ m)
    | optNone => exact .optNone
  | starL p => intro s h; exact h
  | starG p => intro s h; exact h
  | group i r ih => intro s h; exact .group (ih _ h)

/-! ### Lemmas: patterns whose group 1 always participates -/

theorem g1_isSome_mono :
    ∀ (r : Reg) (caps : Caps) (s : List Char) (pr : List Char × Caps),
      pr ∈ matchList r caps s → caps.g1.isSome = true → pr.2.g1.isSome = true := by
  intro r
  induction r with
  | eps =>
    intro caps s pr h hg
    simp only [matchList, List.mem_singleton] at h
    subst h
    exact hg
  | lit c =>
    intro caps s pr h hg
    cases s with
    | nil => simp [matchList] at h
    | cons a rest =>
      simp only [matchList] at h
      by_cases ha : a = c
      · rw [if_pos ha] at h
        simp only [List.mem_singleton] at h
        subst h
        exact hg
      · rw [if_neg ha] at h
        simp at h
  | cls p =>
    intro caps s pr h hg
    cases s with
    | nil => simp [matchList] at h
    | cons a rest =>
      simp only [matchList] at h
      by_cases ha : p a = true
      · rw [if_pos ha] at h
        simp only [List.mem_singleton] at h
        subst h
        exact hg
      · rw [if_neg ha] at h
        simp at h
  | seq r₁ r₂ ih₁ ih₂ =>
    intro caps s pr h hg
    simp only [matchList] at h
    obtain ⟨pr₁, h1, h2⟩ := List.mem_flatMap.mp h
    exact ih₂ pr₁.2 pr₁.1 pr h2 (ih₁ caps s pr₁ h1 hg)
  | alt r₁ r₂ ih₁ ih₂ =>
    intro caps s pr h hg
    simp only [matchList] at h
    rcases List.mem_append.mp h with h | h
    · exact ih₁ caps s pr h hg
    · exact ih₂ caps s pr h hg
  | opt r ih =>
    intro caps s pr h hg
    simp only [matchList] at h
    rcases List.mem_append.mp h with h | h
    · exact ih caps s pr h hg
    · simp only [List.mem_singleton] at h
      subst h
      exact hg
  | starL p =>
    intro caps s pr h hg
    simp only [matchList] at h
    obtain ⟨suf, _, heq⟩ := List.mem_map.mp h
    subst heq
    exact hg
  | starG p =>
    intro caps s pr h hg
    simp only [matchList] at h
    obtain ⟨suf, _, heq⟩ := List.mem_map.mp h
    subst heq
    exact hg
  | group i r ih =>
    intro caps s pr h hg
    simp only [matchList] at h
    obtain ⟨pr₀, h0, heq⟩ := List.mem_map.mp h
    subst heq
    cases i with
    | false => simp [Caps.set]
    | true =>
      simp only [Caps.set, if_pos]
      exact ih caps s pr₀ h0 hg

theorem setsG1_sound :
    ∀ (r : Reg) (caps : Caps) (s : List Char) (pr : List Char × Caps),
      setsG1 r = true → pr ∈ matchList r caps s → pr.2.g1.isSome = true := by
  intro r
  induction r with
  | eps => intro caps s pr hr _; simp [setsG1] at hr
  | lit c => intro caps s pr hr _; simp [setsG1] at hr
  | cls p => intro caps s pr hr _; simp [setsG1] at hr
  | seq r₁ r₂ ih₁ ih₂ =>
    intro caps s pr hr h
    simp only [matchList] at h
    obtain ⟨pr₁, h1, h2⟩ := List.mem_flatMap.mp h
    simp only [setsG1, Bool.or_eq_true] at hr
    rcases hr with hr | hr
    · exact g1_isSome_mono r₂ pr₁.2 pr₁.1 pr h2 (ih₁ caps s pr₁ hr h1)
    · exact ih₂ pr₁.2 pr₁.1 pr hr h2
  | alt r₁ r₂ ih₁ ih₂ =>
    intro caps s pr hr h
    simp only [matchList] at h
    simp only [setsG1, Bool.and_eq_true] at hr
    rcases List.mem_append.mp h with h | h
    · exact ih₁ caps s pr hr.1 h
    · exact ih₂ caps s pr hr.2 h
  | opt r ih => intro caps s pr hr _; simp [setsG1] at hr
  | starL p => intro caps s pr hr _; simp [setsG1] at hr
  | starG p => intro caps s pr hr _; simp [setsG1] at hr
  | group i r ih =>
    intro caps s pr hr h
    simp only [matchList] at h
    obtain ⟨pr₀, h0, heq⟩ := List.mem_map.mp h
    subst heq
    cases i with
    | false => simp [Caps.set]
    | true =>
      simp only [setsG1, Bool.not_true, Bool.false_or] at hr
      simp only [Caps.set, if_pos]
      exact ih caps s pr₀ hr h0

theorem reSearch_setsG1 (r : Reg) (s : List Char) (caps : Caps)
    (hr : setsG1 r = true) (h : reSearch r s = some caps) :
    caps.g1.isSome = true := by
  obtain ⟨t, _, pr, hpr, hc⟩ := reSearch_sound s r caps h
  rw [← hc]
  exact setsG1_sound r Caps.empty t pr hr hpr

/-! ### Lemmas: one line, one pattern -/

theorem create_isSome (gen : Nat → String) (k : Nat) (n : String) (caps : Caps)
    (line : String) (cat : ParameterCategory) (h : caps.g1.isSome = true) :
    (_create_parameter gen k n caps line cat).isSome = true := by
  unfold _create_parameter
  rcases hc : caps.g1 with _ | v
  · rw [hc] at h
    simp at h
  · simp

theorem tryEntry_none_search (gen : Nat → String) (k : Nat) (line : String)
    (e : PatternEntry) (hg : setsG1 e.reg = true)
    (h : tryEntry gen k line e = none) :
    reSearch e.reg (line.data.map pyLowerChar) = none := by
  unfold tryEntry at h
  cases hr : reSearch e.reg (line.data.map pyLowerChar) with
  | none => rfl
  | some caps =>
    rw [hr] at h
    have h2 : _create_parameter gen k e.key caps line e.category = none := h
    have hs := create_isSome gen k e.key caps line e.category
      (reSearch_setsG1 e.reg _ caps hg hr)
    rw [h2] at hs
    simp at hs

theorem tryEntry_some_search (gen : Nat → String) (k : Nat) (line : String)
    (e : PatternEntry) (p : HealthParameter) (h : tryEntry gen k line e = some p) :
    (reSearch e.reg (line.data.map pyLowerChar)).isSome = true := by
  unfold tryEntry at h
  cases hr : reSearch e.reg (line.data.map pyLowerChar) with
  | none => rw [hr] at h; cases h
  | some caps => simp

theorem tryEntry_name (gen : Nat → String) (k : Nat) (line : String)
    (e : PatternEntry) (p : HealthParameter) (h : tryEntry gen k line e = some p) :
    p.name = _format_parameter_name e.key := by
  unfold tryEntry at h
  cases hr : reSearch e.reg (line.data.map pyLowerChar) with
  | none => rw [hr] at h; cases h
  | some caps =>
    rw [hr] at h
    have h2 : _create_parameter gen k e.key caps line e.category = some p := h
    unfold _create_parameter at h2
    rcases hc : caps.g1 with _ | v <;> rw [hc] at h2
    · cases h2
    · injection h2 with h3
      rw [← h3]

theorem tryPatterns_eq_some_iff (gen : Nat → String) (k : Nat) (line : String)
    (es : List PatternEntry) (p : HealthParameter) :
    tryPatterns gen k line es = some p ↔
      ∃ (i : Nat) (e : PatternEntry), es[i]? = some e ∧
        tryEntry gen k line e = some p ∧
        ∀ (j : Nat) (e2 : PatternEntry), j < i → es[j]? = some e2 →
          tryEntry gen k line e2 = none := by
  induction es with
  | nil => simp [tryPatterns]
  | cons e rest ih =>
    cases he : tryEntry gen k line e with
    | some q =>
      simp only [tryPatterns, he]
      constructor
      · intro h
        injection h with h
        refine ⟨0, e, List.getElem?_cons_zero, by rw [he, h], ?_⟩
        intro j e2 hj
        omega
      · rintro ⟨i, e2, hi, hfire, hearlier⟩
        cases i with
        | zero =>
          rw [List.getElem?_cons_zero] at hi
          injection hi with hi
          subst hi
          rw [he] at hfire
          exact hfire
        | succ i2 =>
          have h0 := hearlier 0 e (by omega) List.getElem?_cons_zero
          rw [he] at h0
          cases h0
    | none =>
      simp only [tryPatterns, he]
      rw [ih]
      constructor
      · rintro ⟨i, e2, hi, hfire, hearlier⟩
        refine ⟨i + 1, e2, by simpa using hi, hfire, ?_⟩
        intro j e3 hj hj2
        cases j with
        | zero =>
          rw [List.getElem?_cons_zero] at hj2
          injection hj2 with hj2
          subst hj2
          exact he
        | succ j2 =>
          rw [List.getElem?_cons_succ] at hj2
          exact hearlier j2 e3 (by omega) hj2
      · rintro ⟨i, e2, hi, hfire, hearlier⟩
        cases i with
        | zero =>
          rw [List.getElem?_cons_zero] at hi
          injection hi with hi
          subst hi
          rw [he] at hfire
          cases hfire
        | succ i2 =>
          rw [List.getElem?_cons_succ] at hi
          refine ⟨i2, e2, hi, hfire, ?_⟩
          intro j e3 hj hj2
          exact hearlier (j + 1) e3 (by omega) (by simpa using hj2)

/-- Every parameter of an extraction run was produced by some registry
entry that fired first on its line. -/
theorem output_entry {gen : Nat → String} {text : String} {p : HealthParameter}
    (hp : p ∈ extract_parameters gen text) :
    ∃ (line : String) (k i : Nat) (e : PatternEntry),
      parameter_patterns[i]? = some e ∧
      tryEntry gen k line e = some p ∧
      ∀ (j : Nat) (e2 : PatternEntry), j < i → parameter_patterns[j]? = some e2 →
        tryEntry gen k line e2 = none := by
  have hraw : p ∈ rawParameters gen text := (dedup_sublist [] _).subset hp
  obtain ⟨raw, _, k, _, _, htry⟩ := extractLoop_mem 0 _ hraw
  obtain ⟨i, e, hi, hfire, hearlier⟩ :=
    (tryPatterns_eq_some_iff gen k (String.mk (stripChars raw)) parameter_patterns p).mp htry
  exact ⟨String.mk (stripChars raw), k, i, e, hi, hfire, hearlier⟩

/-! ### Facts about the concrete registry -/

theorem entry_names :
    parameter_patterns.map (fun e => _format_parameter_name e.key) =
      ["Glucose", "Total Cholesterol", "LDL Cholesterol", "HDL Cholesterol",
       "Triglycerides", "Hemoglobin", "Hematocrit", "Systolic BP", "Diastolic BP",
       "Creatinine", "BUN", "ALT", "AST", "Platelets", "WBC Count", "RBC Count",
       "Vitamin D", "Vitamin B12", "TSH"] := by decide

theorem patterns_length : parameter_patterns.length = 19 := rfl

theorem name_index_of (nm : String) (idx : Nat) (i : Nat) (e : PatternEntry)
    (hi : parameter_patterns[i]? = some e)
    (hn : _format_parameter_name e.key = nm)
    (hidx : ∀ j : Nat, j < 19 →
      ((["Glucose", "Total Cholesterol", "LDL Cholesterol", "HDL Cholesterol",
         "Triglycerides", "Hemoglobin", "Hematocrit", "Systolic BP", "Diastolic BP",
         "Creatinine", "BUN", "ALT", "AST", "Platelets", "WBC Count", "RBC Count",
         "Vitamin D", "Vitamin B12", "TSH"] : List String)[j]? = some nm → j = idx)) :
    i = idx := by
  have hlen : i < parameter_patterns.length := by
    by_contra hc
    rw [List.getElem?_eq_none (by omega)] at hi
    cases hi
  rw [patterns_length] at hlen
  have hmap : (parameter_patterns.map (fun e => _format_parameter_name e.key))[i]? =
      some nm := by
    rw [List.getElem?_map, hi]
    simp [hn]
  rw [entry_names] at hmap
  exact hidx i hlen hmap

/-! ### Language relations between the concrete patterns -/

theorem setsG1_systolic : setsG1 bpSystolicR = true := rfl

theorem setsG1_total : setsG1 cholTotalR = true := rfl

/-- The two blood-pressure patterns differ only in which capture group
wraps which number: their group-erased regexes coincide, so they match
exactly the same lines. -/
theorem bp_erase_eq : eraseG bpDiastolicR = eraseG bpSystolicR := rfl

theorem dia_implies_sys (s : List Char) :
    (reSearch bpDiastolicR s).isSome = true →
    (reSearch bpSystolicR s).isSome = true := by
  rw [reSearch_isSome_iff, reSearch_isSome_iff]
  rintro ⟨a, b, c, rfl, m⟩
  exact ⟨a, b, c, rfl,
    matches_eraseG_mpr bpSystolicR b (bp_erase_eq ▸ matches_eraseG_mp m)⟩

/-- A line matched by `ldl.*?cholesterol...` (or `hdl.*?...`) contains a
match of the `(?:total\s+)?cholesterol...` pattern starting at its
"cholesterol": the total-cholesterol pattern matches every such line. -/
theorem cholPre_implies_total (w : List Char) (s : List Char) :
    (reSearch (.seq (lits w) (.seq lazyAnyR cholCore)) s).isSome = true →
    (reSearch cholTotalR s).isSome = true := by
  rw [reSearch_isSome_iff, reSearch_isSome_iff]
  rintro ⟨a, b, c, rfl, m⟩
  cases m with
  | seq m₁ m₂ =>
    rename_i s₁ s₂
    cases m₂ with
    | seq mAny mCore =>
      rename_i sA sCore
      refine ⟨a ++ (s₁ ++ sA), sCore, c, by simp [List.append_assoc], ?_⟩
      exact Matches.seq (Matches.optNone) mCore

/-! ### C3, C4, C10 -/

/-- C3: per-line pattern resolution is a first-match-wins scan of the
registry in insertion order: the line loop yields `p` exactly when some
entry `i` matches (case-insensitively) and constructs `p` while every
earlier entry fails to match-and-construct, and a line yields at most one
parameter (the scan stops at the first success). -/
theorem c3_first_pattern_wins :
    ∀ (gen : Nat → String) (k : Nat) (line : String) (p : HealthParameter),
      tryPatterns gen k line parameter_patterns = some p ↔
        ∃ (i : Nat) (e : PatternEntry), parameter_patterns[i]? = some e ∧
          tryEntry gen k line e = some p ∧
          ∀ (j : Nat) (e2 : PatternEntry), j < i → parameter_patterns[j]? = some e2 →
            tryEntry gen k line e2 = none :=
  fun gen k line p => tryPatterns_eq_some_iff gen k line parameter_patterns p

/-- No extraction output is ever named "Diastolic BP": the diastolic
pattern matches exactly the lines the (earlier-registered) systolic
pattern matches, and the per-line scan stops at the first success. -/
theorem no_diastolic (gen : Nat → String) (text : String) :
    ∀ p ∈ extract_parameters gen text, p.name ≠ "Diastolic BP" := by
  intro p hp hname
  obtain ⟨line, k, i, e, hi, hfire, hearlier⟩ := output_entry hp
  have hn : _format_parameter_name e.key = "Diastolic BP" := by
    rw [← tryEntry_name gen k line e p hfire]
    exact hname
  have hi8 : i = 8 := by
    refine name_index_of "Diastolic BP" 8 i e hi hn ?_
    intro j hj hj2
    interval_cases j <;> revert hj2 <;> decide
  subst hi8
  have he : e = ⟨"blood_pressure_diastolic", bpDiastolicR, ParameterCategory.blood⟩ := by
    have h8 : parameter_patterns[8]? =
        some ⟨"blood_pressure_diastolic", bpDiastolicR, ParameterCategory.blood⟩ := rfl
    rw [h8] at hi
    injection hi with h
    exact h.symm
  have hsysnone : tryEntry gen k line
      ⟨"blood_pressure_systolic", bpSystolicR, ParameterCategory.blood⟩ = none :=
    hearlier 7 _ (by omega) rfl
  have hdia : (reSearch bpDiastolicR (line.data.map pyLowerChar)).isSome = true := by
    have hs := tryEntry_some_search gen k line e p hfire
    rw [he] at hs
    exact hs
  have hsys := dia_implies_sys _ hdia
  have hnone := tryEntry_none_search gen k line
    ⟨"blood_pressure_systolic", bpSystolicR, ParameterCategory.blood⟩
    setsG1_systolic hsysnone
  rw [hnone] at hsys
  cases hsys

/-- C4 counterexample: on the canonical single blood-pressure line the
claimed pair (a Systolic BP parameter and a Diastolic BP parameter from
that one line) does not appear — only Systolic BP does. -/
theorem c4_counterexample :
    ¬ ("Systolic BP" ∈ (extract_parameters (fun k => toString k)
          "Blood Pressure: 120/80 mmHg").map (fun p => p.name) ∧
       "Diastolic BP" ∈ (extract_parameters (fun k => toString k)
          "Blood Pressure: 120/80 mmHg").map (fun p => p.name)) := by decide

/-- C4 amended: a single blood-pressure line yields only the Systolic BP
parameter; the Diastolic BP registry entry can never fire — on any input
text, no output parameter is named "Diastolic BP", because the per-line
scan attributes a line to at most one pattern and every line the diastolic
pattern matches is already matched by the earlier systolic pattern. -/
theorem c4_bp_single_identity :
    ∀ gen : Nat → String,
      ((extract_parameters gen "Blood Pressure: 120/80 mmHg").map (fun p => p.name) =
        ["Systolic BP"]) ∧
      ∀ text : String, ((extract_parameters gen text).all
        (fun p => p.name != "Diastolic BP")) = true := by
  intro gen
  constructor
  · rfl
  · intro text
    rw [List.all_eq_true]
    intro p hp
    simpa using no_diastolic gen text p hp

/-- No extraction output is ever named "LDL Cholesterol" or
"HDL Cholesterol". -/
theorem no_ldl_hdl (gen : Nat → String) (text : String) :
    ∀ p ∈ extract_parameters gen text,
      p.name ≠ "LDL Cholesterol" ∧ p.name ≠ "HDL Cholesterol" := by
  intro p hp
  constructor
  · intro hname
    obtain ⟨line, k, i, e, hi, hfire, hearlier⟩ := output_entry hp
    have hn : _format_parameter_name e.key = "LDL Cholesterol" := by
      rw [← tryEntry_name gen k line e p hfire]
      exact hname
    have hi2 : i = 2 := by
      refine name_index_of "LDL Cholesterol" 2 i e hi hn ?_
      intro j hj hj2
      interval_cases j <;> revert hj2 <;> decide
    subst hi2
    have he : e = ⟨"cholesterol_ldl", cholLdlR, ParameterCategory.lipid⟩ := by
      have h2 : parameter_patterns[2]? =
          some ⟨"cholesterol_ldl", cholLdlR, ParameterCategory.lipid⟩ := rfl
      rw [h2] at hi
      injection hi with h
      exact h.symm
    have htotnone : tryEntry gen k line
        ⟨"cholesterol_total", cholTotalR, ParameterCategory.lipid⟩ = none :=
      hearlier 1 _ (by omega) rfl
    have hldl : (reSearch cholLdlR (line.data.map pyLowerChar)).isSome = true := by
      have hs := tryEntry_some_search gen k line e p hfire
      rw [he] at hs
      exact hs
    have htot := cholPre_implies_total "ldl".data _ hldl
    have hnone := tryEntry_none_search gen k line
      ⟨"cholesterol_total", cholTotalR, ParameterCategory.lipid⟩
      setsG1_total htotnone
    rw [hnone] at htot
    cases htot
  · intro hname
    obtain ⟨line, k, i, e, hi, hfire, hearlier⟩ := output_entry hp
    have hn : _format_parameter_name e.key = "HDL Cholesterol" := by
      rw [← tryEntry_name gen k line e p hfire]
      exact hname
    have hi3 : i = 3 := by
      refine name_index_of "HDL Cholesterol" 3 i e hi hn ?_
      intro j hj hj2
      interval_cases j <;> revert hj2 <;> decide
    subst hi3
    have he : e = ⟨"cholesterol_hdl", cholHdlR, ParameterCategory.lipid⟩ := by
      have h3 : parameter_patterns[3]? =
          some ⟨"cholesterol_hdl", cholHdlR, ParameterCategory.lipid⟩ := rfl
      rw [h3] at hi
      injection hi with h
      exact h.symm
    have htotnone : tryEntry gen k line
        ⟨"cholesterol_total", cholTotalR, ParameterCategory.lipid⟩ = none :=
      hearlier 1 _ (by omega) rfl
    have hhdl : (reSearch cholHdlR (line.data.map pyLowerChar)).isSome = true := by
      have hs := tryEntry_some_search gen k line e p hfire
      rw [he] at hs
      exact hs
    have htot := cholPre_implies_total "hdl".data _ hhdl
    have hnone := tryEntry_none_search gen k line
      ⟨"cholesterol_total", cholTotalR, ParameterCategory.lipid⟩
      setsG1_total htotnone
    rw [hnone] at htot
    cases htot

/-- C10: the output of `extract_parameters` never contains a parameter
named "LDL Cholesterol" or "HDL Cholesterol": every line the
cholesterol_ldl or cholesterol_hdl rule matches is also matched by the
earlier-registered cholesterol_total rule, whose construction always
succeeds, and the per-line early exit attributes the line to the earlier
entry. -/
theorem c10_no_ldl_hdl_output :
    ∀ (gen : Nat → String) (text : String),
      ((extract_parameters gen text).all
        (fun p => p.name != "LDL Cholesterol" && p.name != "HDL Cholesterol")) = true := by
  intro gen text
  rw [List.all_eq_true]
  intro p hp
  have h := no_ldl_hdl gen text p hp
  simp [h.1, h.2]

/-! ### Concrete evaluations (the spec's scenarios A, B, C, E and the
classification boundaries), checking the embedding end to end -/

theorem scenario_A :
    (extract_parameters (fun k => toString k)
        "Glucose: 95 mg/dl\nCholesterol: 210 mg/dl").map
      (fun p => (p.name, p.value, p.unit, p.status)) =
      [("Glucose", .num 95, some "mg/dl", .normal),
       ("Total Cholesterol", .num 210, some "mg/dl", .high)] := by decide

theorem scenario_B :
    (extract_parameters (fun k => toString k) "Glucose 30 mg/dl").map
      (fun p => (p.name, p.value, p.status)) =
      [("Glucose", .num 30, .critical)] := by decide

theorem scenario_C :
    (extract_parameters (fun k => toString k)
        "Glucose: 90 mg/dl\nGlucose 95 mg/dl").map
      (fun p => (p.name, p.value)) = [("Glucose", .num 90)] := by decide

theorem scenario_E :
    extract_parameters (fun k => toString k) "   \n \t " = [] := by decide

theorem glucose_boundaries :
    _determine_status "glucose" (.num 70) = .normal ∧
    _determine_status "glucose" (.num 100) = .normal ∧
    _determine_status "glucose" (.num 34) = .critical ∧
    _determine_status "glucose" (.num 35) = .low ∧
    _determine_status "glucose" (.num 101) = .high ∧
    _determine_status "glucose" (.num 201) = .critical ∧
    _determine_status "unknown_parameter" (.num 1) = .normal := by decide

theorem ldl_line_goes_to_total :
    (extract_parameters (fun k => toString k) "LDL Cholesterol: 130 mg/dl").map
      (fun p => p.name) = ["Total Cholesterol"] := by decide

end HLRA
